import Mathlib

/-!
# Golf Pixel: a shallow embedding of `src/main.cpp`

The embedding follows the C++ source function by function.

* `int` values are modelled as `Int`.  Signed overflow is undefined behaviour in C++; the
  compiled code wraps around modulo `2^32`.  The score counter `bounceCount` and the overlap
  test `checkOverlap32` are modelled with this wrap-around (`wrapInt32`); the other
  computations on coordinates are modelled without overflow.
* `float` values are modelled exactly as IEEE-754 binary32 numbers with round-to-nearest,
  ties-to-even, every operation rounded to binary32.  A finite binary32 number is an integer
  multiple of `2^-149`, and the type `F32` stores that integer.  Overflow to infinity and NaN
  are not represented (the exponent is unbounded above), and the two zeros are identified:
  the program never divides by a velocity nor inspects the sign of a zero.
* `rand()` is modelled by the list of the values it returns, consumed front to back.  A
  rejection-sampling loop that uses up the list without accepting a position yields `none`.
* Sound playback, drawing and delays have no effect on the modelled state and are omitted.
-/

set_option exponentiation.threshold 4096
set_option maxRecDepth 100000

namespace GolfPixel

/-! ## binary32 arithmetic -/

/-- A finite binary32 value `n * 2^-149`, stored as the integer `n`. -/
abbrev F32 := Int

/-- Number of low bits of `a` that do not fit in a 24 bit significand: the number of times `a`
has to be halved to get below `2^24`.  The first argument bounds the number of halvings and is
always instantiated with `a` itself. -/
def excessBits : Nat → Nat → Nat
  | 0, _ => 0
  | fuel + 1, a => if a < 2 ^ 24 then 0 else excessBits fuel (a / 2) + 1

/-- The binary32 value nearest to the exact number `m * 2^(-149 - k)` (ties to even), in units
of `2^-149`.  The result keeps at most 24 significant bits and is a multiple of `2^-149`. -/
def f32Round (m : Int) (k : Nat) : F32 :=
  let a := m.natAbs
  let s := max (excessBits a a) k
  let q := a / 2 ^ s
  let r := a % 2 ^ s
  let q' := if 2 ^ s < 2 * r ∨ (2 * r = 2 ^ s ∧ q % 2 = 1) then q + 1 else q
  Int.sign m * ((q' * 2 ^ (s - k) : Nat) : Int)

/-- Conversion `int → float`. -/
def f32OfInt (i : Int) : F32 := f32Round (i * 2 ^ 149) 0

/-- Conversion `float → int` (`static_cast<int>` and implicit conversion): truncation toward
zero. -/
def f32ToInt (v : F32) : Int := Int.tdiv v (2 ^ 149)

/-- The sum `a + b` of two floats. -/
def f32Add (a b : F32) : F32 := f32Round (a + b) 0

/-- The difference `a - b` of two floats. -/
def f32Sub (a b : F32) : F32 := f32Round (a - b) 0

/-- The product `a * b` of two floats. -/
def f32Mul (a b : F32) : F32 := f32Round (a * b) 149

/-- The literal `0.9f` (`const float FRICTION = 0.9f`): `15099494 * 2^-24`. -/
def FRICTION : F32 := 15099494 * 2 ^ 125

/-- The literal `0.1f`: `13421773 * 2^-27`. -/
def lit_0_1f : F32 := 13421773 * 2 ^ 122

/-- The literal `0.05f`: `13421773 * 2^-28`. -/
def lit_0_05f : F32 := 13421773 * 2 ^ 121

/-- The literal `0.8f`: `13421773 * 2^-24`. -/
def lit_0_8f : F32 := 13421773 * 2 ^ 125

/-! ## Constants and data model -/

def SCREEN_WIDTH : Int := 960
def SCREEN_HEIGHT : Int := 540
def BALL_SIZE : Int := 16
def HOLE_SIZE : Int := 16

/-- The largest value of a 32-bit `int`. -/
def INT_MAX : Int := 2147483647

/-- The smallest value of a 32-bit `int`. -/
def INT_MIN : Int := -2147483648

/-- The 32-bit `int` that holds the result of an addition whose exact value is `n`:
two's-complement wrap-around modulo `2^32`. -/
def wrapInt32 (n : Int) : Int := (n + 2 ^ 31) % 2 ^ 32 - 2 ^ 31

/-- The SDL rectangle `SDL_Rect { int x, y, w, h; }`. -/
structure Rect where
  x : Int
  y : Int
  w : Int
  h : Int
  deriving DecidableEq, Repr, Inhabited

/-- The enumeration `enum GameState`. -/
inductive GameState where
  | START_SCREEN
  | GAME_RUNNING
  | GAME_COMPLETED
  | GAME_EXIT
  deriving DecidableEq, Repr, Inhabited

/-! ## Geometry -/

/-- The lambda `checkOverlap` of `randomizeObjectPositions`, with the sums `x + w` and `y + h`
taken without overflow. -/
def checkOverlap (rect1 rect2 : Rect) : Bool :=
  !(decide (rect1.x + rect1.w ≤ rect2.x) || decide (rect1.y + rect1.h ≤ rect2.y) ||
    decide (rect1.x ≥ rect2.x + rect2.w) || decide (rect1.y ≥ rect2.y + rect2.h))

/-- The lambda `checkOverlap` of `randomizeObjectPositions` on 32-bit `int`: the four sums
`rect.x + rect.w` and `rect.y + rect.h` are `int` additions and wrap around. -/
def checkOverlap32 (rect1 rect2 : Rect) : Bool :=
  !(decide (wrapInt32 (rect1.x + rect1.w) ≤ rect2.x) ||
    decide (wrapInt32 (rect1.y + rect1.h) ≤ rect2.y) ||
    decide (rect1.x ≥ wrapInt32 (rect2.x + rect2.w)) ||
    decide (rect1.y ≥ wrapInt32 (rect2.y + rect2.h)))

/-- The four fields of the rectangle are 32-bit `int` values, and so are its right edge
`x + w` and its bottom edge `y + h`: the sums of `checkOverlap` do not overflow. -/
def FitsInt32 (r : Rect) : Prop :=
  (INT_MIN ≤ r.x ∧ r.x ≤ INT_MAX) ∧ (INT_MIN ≤ r.y ∧ r.y ≤ INT_MAX) ∧
  (INT_MIN ≤ r.w ∧ r.w ≤ INT_MAX) ∧ (INT_MIN ≤ r.h ∧ r.h ≤ INT_MAX) ∧
  (INT_MIN ≤ r.x + r.w ∧ r.x + r.w ≤ INT_MAX) ∧ (INT_MIN ≤ r.y + r.h ∧ r.y + r.h ≤ INT_MAX)

instance (r : Rect) : Decidable (FitsInt32 r) := by
  unfold FitsInt32; infer_instance

/-- Modelled from the spec: `SDL_HasIntersection` is a function of the SDL library, which is
not part of the repository.  Following the spec (`intersects`, half-open interval semantics)
and the SDL documentation, a rectangle without area intersects nothing, and two rectangles with
area intersect when the clipped interval is non-empty on both axes. -/
def SDL_HasIntersection (A B : Rect) : Bool :=
  if A.w ≤ 0 ∨ A.h ≤ 0 ∨ B.w ≤ 0 ∨ B.h ≤ 0 then false
  else
    decide (max A.x B.x < min (A.x + A.w) (B.x + B.w)) &&
    decide (max A.y B.y < min (A.y + A.h) (B.y + B.h))

/-- The function `checkCollision`. -/
def checkCollision (ballRect objectRect : Rect) : Bool :=
  SDL_HasIntersection ballRect objectRect

/-- The region shared by two rectangles has positive area. -/
def positiveAreaOverlap (a b : Rect) : Prop :=
  max a.x b.x < min (a.x + a.w) (b.x + b.w) ∧ max a.y b.y < min (a.y + a.h) (b.y + b.h)

instance (a b : Rect) : Decidable (positiveAreaOverlap a b) := by
  unfold positiveAreaOverlap; infer_instance

/-! ## Layout randomizer -/

/-- The local constant `minD` of `randomizeObjectPositions`. -/
def minD : Int := 100

/-- The local variable `BOUNDARY_WIDTH` of `randomizeObjectPositions`. -/
def BOUNDARY_WIDTH : Nat := 700

/-- The local variable `BOUNDARY_HEIGHT` of `randomizeObjectPositions`. -/
def BOUNDARY_HEIGHT : Nat := 300

/-- The assignments `r.x = minD + rand() % BOUNDARY_WIDTH; r.y = minD + rand() % BOUNDARY_HEIGHT`
for the two consecutive values `rx`, `ry` of `rand()`; width and height are not written. -/
def randomPosition (r : Rect) (rx ry : Nat) : Rect :=
  { r with x := minD + ((rx % BOUNDARY_WIDTH : Nat) : Int),
           y := minD + ((ry % BOUNDARY_HEIGHT : Nat) : Int) }

/-- The inner `for (j = 0; j < numObjects; ++j)` loop of the obstacle placement: `true` when
`objects[i]` overlaps some `objects[j]` with `i != j`. -/
def overlapsOtherObject (objects : List Rect) (i : Nat) : Bool :=
  (List.range objects.length).any fun j =>
    decide (i ≠ j) && checkOverlap (objects.getD i default) (objects.getD j default)

/-- The inner `for` loop of the ball and hole placement: `true` when `r` overlaps some
obstacle. -/
def overlapsAnyObject (r : Rect) (objects : List Rect) : Bool :=
  objects.any fun o => checkOverlap r o

/-- The loop `while (!positionFound)` for obstacle `i`: every round draws a position, writes
it into `objects[i]` and accepts it when `objects[i]` overlaps no other obstacle.  Returns the
array and the unused draws, or `none` when the draws run out first. -/
def placeObject (i : Nat) : List Rect → List Nat → Option (List Rect × List Nat)
  | objects, rx :: ry :: rest =>
    let objects' := objects.set i (randomPosition (objects.getD i default) rx ry)
    if overlapsOtherObject objects' i then placeObject i objects' rest
    else some (objects', rest)
  | _, _ => none

/-- The loop `for (i = 0; i < numObjects; ++i)` from index `i` on, with `remaining`
obstacles still to be placed. -/
def placeObjectsFrom : Nat → Nat → List Rect → List Nat → Option (List Rect × List Nat)
  | 0, _, objects, draws => some (objects, draws)
  | remaining + 1, i, objects, draws =>
    match placeObject i objects draws with
    | none => none
    | some (objects', draws') => placeObjectsFrom remaining (i + 1) objects' draws'

/-- The loop `while (!positionFound)` for the ball. -/
def placeBall (objects : List Rect) : Rect → List Nat → Option (Rect × List Nat)
  | ballRect, rx :: ry :: rest =>
    let ballRect' := randomPosition ballRect rx ry
    if overlapsAnyObject ballRect' objects then placeBall objects ballRect' rest
    else some (ballRect', rest)
  | _, _ => none

/-- The loop `while (!positionFound)` for the hole: the hole is tested against every obstacle
and against the ball. -/
def placeHole (objects : List Rect) (ballRect : Rect) : Rect → List Nat → Option (Rect × List Nat)
  | holeRect, rx :: ry :: rest =>
    let holeRect' := randomPosition holeRect rx ry
    if overlapsAnyObject holeRect' objects || checkOverlap holeRect' ballRect then
      placeHole objects ballRect holeRect' rest
    else some (holeRect', rest)
  | _, _ => none

/-- The result of `randomizeObjectPositions`: the three arguments passed by reference. -/
structure Layout where
  objects : List Rect
  ballRect : Rect
  holeRect : Rect
  deriving DecidableEq, Repr

/-- The function `randomizeObjectPositions`, with `numObjects = objects.length`.  `draws` are
the successive values of `rand()`; the result carries the draws left over. -/
def randomizeObjectPositions (objects : List Rect) (ballRect holeRect : Rect)
    (draws : List Nat) : Option (Layout × List Nat) :=
  match placeObjectsFrom objects.length 0 objects draws with
  | none => none
  | some (objects', draws1) =>
    match placeBall objects' ballRect draws1 with
    | none => none
    | some (ballRect', draws2) =>
      match placeHole objects' ballRect' holeRect draws2 with
      | none => none
      | some (holeRect', draws3) =>
        some ({ objects := objects', ballRect := ballRect', holeRect := holeRect' }, draws3)

/-- No two of the obstacles, the ball and the hole overlap, as decided by `checkOverlap`. -/
def NoOverlaps (l : Layout) : Prop :=
  (∀ i j, i < l.objects.length → j < l.objects.length → i ≠ j →
      checkOverlap (l.objects.getD i default) (l.objects.getD j default) = false) ∧
  (∀ o ∈ l.objects, checkOverlap l.ballRect o = false) ∧
  (∀ o ∈ l.objects, checkOverlap l.holeRect o = false) ∧
  checkOverlap l.holeRect l.ballRect = false

/-- No two of the first `k` obstacles overlap. -/
def PlacedApart (k : Nat) (objects : List Rect) : Prop :=
  ∀ a b, a < k → b < k → a ≠ b →
    checkOverlap (objects.getD a default) (objects.getD b default) = false

/-- The rectangle `r'` has the size of `r` and its top-left corner in the sub-rectangle
`100 <= x < 800`, `100 <= y < 400` that the randomizer draws from. -/
def Repositioned (r r' : Rect) : Prop :=
  r'.w = r.w ∧ r'.h = r.h ∧ 100 ≤ r'.x ∧ r'.x < 800 ∧ 100 ≤ r'.y ∧ r'.y < 400

/-- The array `objects` of `main`. -/
def referenceObjects : List Rect :=
  [⟨300, 200, 70, 40⟩, ⟨350, 100, 80, 45⟩, ⟨600, 450, 100, 60⟩,
   ⟨600, 200, 50, 50⟩, ⟨250, 250, 55, 55⟩, ⟨300, 400, 50, 50⟩,
   ⟨800, 310, 95, 95⟩, ⟨750, 100, 95, 95⟩, ⟨480, 410, 50, 50⟩,
   ⟨150, 180, 80, 45⟩, ⟨480, 160, 40, 40⟩, ⟨100, 400, 100, 100⟩]

/-- The rectangle `holeRect` of `main`. -/
def referenceHole : Rect := ⟨90, 280, HOLE_SIZE, HOLE_SIZE⟩

/-! ## Game state -/

/-- The variables of `main` that `handleEvents` and `updateBallPosition` receive by reference,
the global `bounceCount`, and the flag `closed`, set when `close()` has been called (`close()`
releases the resources and ends the process with `exit(0)`). -/
structure Game where
  quit : Bool
  moveBall : Bool
  ballRect : Rect
  ballVelX : F32
  ballVelY : F32
  mousePressed : Bool
  pressStartTime : Nat
  showArrow : Bool
  arrowRect : Rect
  arrowAngle : F32
  currentState : GameState
  objects : List Rect
  holeRect : Rect
  ballInHole : Bool
  animationProgress : F32
  bounceCount : Int
  closed : Bool
  deriving DecidableEq, Repr

/-- The state at the start of `main`'s loop. -/
def initialGame : Game :=
  { quit := false, moveBall := false,
    ballRect := ⟨Int.tdiv SCREEN_WIDTH 2, Int.tdiv SCREEN_HEIGHT 2, BALL_SIZE, BALL_SIZE⟩,
    ballVelX := 0, ballVelY := 0, mousePressed := false, pressStartTime := 0,
    showArrow := false, arrowRect := ⟨0, 0, 50, 50⟩, arrowAngle := 0,
    currentState := GameState.START_SCREEN, objects := referenceObjects,
    holeRect := referenceHole, ballInHole := false, animationProgress := 0,
    bounceCount := 0, closed := false }

/-! ## Input interpreter -/

/-- The field `e.type` of an `SDL_Event`, as far as `handleEvents` distinguishes it. -/
inductive EventType where
  | SDL_QUIT
  | SDL_KEYDOWN
  | SDL_KEYUP
  | SDL_MOUSEBUTTONDOWN
  | SDL_MOUSEBUTTONUP
  | OTHER
  deriving DecidableEq, Repr

/-- The SDL key code `SDLK_RETURN` (`'\r'`). -/
def SDLK_RETURN : Int := 13

/-- The SDL key code `SDLK_ESCAPE` (`'\x1B'`). -/
def SDLK_ESCAPE : Int := 27

/-- One event returned by `SDL_PollEvent`, together with what the handler reads from the
environment while it handles the event.  `sym` is `e.key.keysym.sym`, which the handler reads
whatever the type of the event.  The mouse branches compute the aim indicator and the launch
velocity from `SDL_GetMouseState` and `SDL_GetTicks` with `sqrt` and `atan2f`; these results
are carried by the event (`aimRect`, `aimAngle`, `launchVelX`, `launchVelY`) instead of being
recomputed. -/
structure Event where
  type : EventType
  sym : Int
  ticks : Nat
  aimRect : Rect
  aimAngle : F32
  launchVelX : F32
  launchVelY : F32
  deriving DecidableEq, Repr

/-- The body of the loop `while (SDL_PollEvent(&e))` of `handleEvents` for one event.  The
result is `none` when `randomizeObjectPositions` does not return with the given draws. -/
def handleEvent (e : Event) (draws : List Nat) (g : Game) : Option (Game × List Nat) :=
  if e.type = EventType.SDL_QUIT then
    some ({ g with quit := true }, draws)
  else if g.currentState = GameState.START_SCREEN ∧ e.type = EventType.SDL_KEYDOWN then
    some ({ g with currentState := GameState.GAME_RUNNING }, draws)
  else if g.currentState = GameState.GAME_RUNNING then
    if e.type = EventType.SDL_MOUSEBUTTONDOWN ∧ g.ballVelX = 0 ∧ g.ballVelY = 0 then
      some ({ g with moveBall := true, mousePressed := true, pressStartTime := e.ticks,
                     arrowAngle := e.aimAngle, arrowRect := e.aimRect, showArrow := true },
            draws)
    else if e.type = EventType.SDL_MOUSEBUTTONUP ∧ g.ballVelX = 0 ∧ g.ballVelY = 0 then
      some ({ g with moveBall := false, mousePressed := false, ballVelX := e.launchVelX,
                     ballVelY := e.launchVelY, showArrow := false }, draws)
    else some (g, draws)
  else if g.currentState = GameState.GAME_COMPLETED ∧ e.sym = SDLK_RETURN then
    match randomizeObjectPositions g.objects
        ⟨Int.tdiv SCREEN_WIDTH 2, Int.tdiv SCREEN_HEIGHT 2, BALL_SIZE, BALL_SIZE⟩ g.holeRect draws with
    | none => none
    | some (l, draws') =>
      some ({ g with ballRect := l.ballRect, ballVelX := 0, ballVelY := 0,
                     objects := l.objects, holeRect := l.holeRect, bounceCount := 0,
                     currentState := GameState.GAME_RUNNING }, draws')
  else if e.sym = SDLK_ESCAPE then
    some ({ g with closed := true }, draws)
  else some (g, draws)

/-- The function `handleEvents`: the pending events are handled in order; a call of `close()`
ends the process, so the events after it are not handled. -/
def handleEvents : List Event → List Nat → Game → Option (Game × List Nat)
  | [], draws, g => some (g, draws)
  | e :: es, draws, g =>
    match handleEvent e draws g with
    | none => none
    | some (g', draws') => if g'.closed then some (g', draws') else handleEvents es draws' g'

/-! ## Ball simulator -/

/-- The local variable `deltaX` of `reflectBallOffObject`: the horizontal distance between the
centres (integer division truncates). -/
def centerDeltaX (ballRect objectRect : Rect) : Int :=
  (ballRect.x + Int.tdiv ballRect.w 2) - (objectRect.x + Int.tdiv objectRect.w 2)

/-- The local variable `deltaY` of `reflectBallOffObject`. -/
def centerDeltaY (ballRect objectRect : Rect) : Int :=
  (ballRect.y + Int.tdiv ballRect.h 2) - (objectRect.y + Int.tdiv objectRect.h 2)

/-- The function `reflectBallOffObject`, on the three variables it receives by reference. -/
def reflectBallOffObject (ballRect : Rect) (ballVelX ballVelY : F32) (objectRect : Rect) :
    Rect × F32 × F32 :=
  let deltaX := centerDeltaX ballRect objectRect
  let deltaY := centerDeltaY ballRect objectRect
  if |deltaX| > |deltaY| then
    if deltaX > 0 then
      ({ ballRect with x := objectRect.x + objectRect.w }, -ballVelX, ballVelY)
    else
      ({ ballRect with x := objectRect.x - ballRect.w }, -ballVelX, ballVelY)
  else
    if deltaY > 0 then
      ({ ballRect with y := objectRect.y + objectRect.h }, ballVelX, -ballVelY)
    else
      ({ ballRect with y := objectRect.y - ballRect.h }, ballVelX, -ballVelY)

/-- The friction step on one velocity component: `v *= FRICTION; if (std::fabs(v) < 0.1f)
v = 0;`. -/
def frictionStep (v : F32) : F32 :=
  let v' := f32Mul v FRICTION
  if |v'| < lit_0_1f then 0 else v'

/-- The block `if (!moveBall) { ... }` of `updateBallPosition`. -/
def applyFriction (moveBall : Bool) (g : Game) : Game :=
  if moveBall then g
  else { g with ballVelX := frictionStep g.ballVelX, ballVelY := frictionStep g.ballVelY }

/-- The integration of the position by the truncated velocity, followed by the boundary
rule. -/
def integrate (g : Game) : Game :=
  let x := g.ballRect.x + f32ToInt g.ballVelX
  let y := g.ballRect.y + f32ToInt g.ballVelY
  if x < 0 ∨ x > SCREEN_WIDTH - BALL_SIZE ∨ y < 0 ∨ y > SCREEN_HEIGHT - BALL_SIZE then
    { g with ballRect := ⟨Int.tdiv (3 * SCREEN_WIDTH) 4, Int.tdiv (3 * SCREEN_HEIGHT) 4,
                          BALL_SIZE, BALL_SIZE⟩,
             ballVelX := 0, ballVelY := 0 }
  else { g with ballRect := { g.ballRect with x := x, y := y } }

/-- The floats `newX` and `newY`. -/
def tentativePosition (g : Game) : F32 × F32 :=
  (f32Add (f32OfInt g.ballRect.x) g.ballVelX, f32Add (f32OfInt g.ballRect.y) g.ballVelY)

/-- The rectangle `futureBallRect`. -/
def futureBallRect (g : Game) : Rect :=
  ⟨f32ToInt (tentativePosition g).1, f32ToInt (tentativePosition g).2, g.ballRect.w,
   g.ballRect.h⟩

/-- The part of `updateBallPosition` after `futureBallRect` has been computed: hole capture,
else reflection off the first obstacle hit, else the move to the tentative position.  The
increment `bounceCount++` is an `int` addition and wraps around. -/
def resolveTentative (g : Game) : Game :=
  let future := futureBallRect g
  if checkCollision future g.holeRect then
    { g with ballRect := { g.ballRect with x := g.holeRect.x + Int.tdiv g.holeRect.w 4,
                                           y := g.holeRect.y + Int.tdiv g.holeRect.h 4 },
             ballInHole := true, ballVelX := 0, ballVelY := 0, animationProgress := 0 }
  else
    match g.objects.find? fun o => checkCollision future o with
    | some o =>
      let r := reflectBallOffObject g.ballRect g.ballVelX g.ballVelY o
      { g with ballRect := r.1, ballVelX := r.2.1, ballVelY := r.2.2,
               bounceCount := wrapInt32 (g.bounceCount + 1) }
    | none =>
      { g with ballRect := { g.ballRect with x := f32ToInt (tentativePosition g).1,
                                             y := f32ToInt (tentativePosition g).2 } }

/-- The branch `if (ballInHole) { ... return; }` of `updateBallPosition`: one tick of the
capture animation. -/
def animateCapture (g : Game) : Game :=
  let progress := f32Add g.animationProgress lit_0_05f
  if g.ballRect.w ≥ 12 then
    let size := f32ToInt (f32Mul (f32OfInt BALL_SIZE) (f32Sub lit_0_8f progress))
    { g with animationProgress := progress, ballRect := { g.ballRect with w := size, h := size } }
  else
    { g with animationProgress := progress, currentState := GameState.GAME_COMPLETED,
             ballInHole := false }

/-- The function `updateBallPosition`; the argument `moveBall` is the field of that name, as
in the call in `main`. -/
def updateBallPosition (g : Game) : Game :=
  if g.ballInHole then animateCapture g
  else resolveTentative (integrate (applyFriction g.moveBall g))

/-- The bound that `n` friction steps guarantee for a component that started with magnitude at
most 40: the magnitude is at most `2^23` units, or at most `40 * (N / D)^n` with
`N / D = 0.9f * (1 + 2^-23)`. -/
def Decayed (n : Nat) (v : F32) : Prop :=
  v.natAbs ≤ 2 ^ 23 ∨
    v.natAbs * (2 ^ 47) ^ n ≤ (40 * 2 ^ 149) * (15099494 * (2 ^ 23 + 1)) ^ n

/-! ## Scenarios -/

/-- The scenario of the spec: the ball at `(480,270,16,16)` with velocity `(-20,0)`, not
dragged, not captured, score 0, the reference hole, and the given obstacles. -/
def collisionScenario (objects : List Rect) : Game :=
  { initialGame with ballRect := ⟨480, 270, 16, 16⟩, ballVelX := -20 * 2 ^ 149, ballVelY := 0,
                     currentState := GameState.GAME_RUNNING, objects := objects }

/-- The game after the round has been completed, with the layout of `main`. -/
def completedGame : Game :=
  { initialGame with currentState := GameState.GAME_COMPLETED }

/-- The ball at rest on the hole at `(100,100)`, launched with velocity `(40,0)`. -/
def launchedFromHole : Game :=
  { initialGame with ballRect := ⟨100, 100, 16, 16⟩, holeRect := ⟨100, 100, 16, 16⟩,
                     ballVelX := 40 * 2 ^ 149, currentState := GameState.GAME_RUNNING }

/-- The ball at rest next to the hole of `main`. -/
def restingOnHole : Game :=
  { initialGame with ballRect := ⟨95, 285, 16, 16⟩, currentState := GameState.GAME_RUNNING }

/-- The state right after a capture in the layout of `main`. -/
def capturedGame : Game :=
  { initialGame with ballRect := ⟨94, 284, 16, 16⟩, ballInHole := true,
                     currentState := GameState.GAME_RUNNING }

/-- The game `g` with the animation progress `progress` and the ball resized to
`size x size`. -/
def resized (g : Game) (progress : F32) (size : Int) : Game :=
  { g with animationProgress := progress,
           ballRect := { g.ballRect with w := size, h := size } }

/-- A key-down event for the key `sym`. -/
def keyDown (sym : Int) : Event :=
  { type := EventType.SDL_KEYDOWN, sym := sym, ticks := 0, aimRect := ⟨0, 0, 50, 50⟩,
    aimAngle := 0, launchVelX := 0, launchVelY := 0 }

/-- A sequence of 58 values of `rand()`. -/
def sampleDraws : List Nat :=
  [19081, 17033, 15269, 25461, 13856, 1093, 13677, 26500, 20065, 23425, 5972, 16914, 18414,
   8148, 30133, 3632, 21573, 10763, 6071, 21987, 30105, 4308, 13454, 27824, 13422, 1071,
   18551, 26345, 4855, 29589, 15729, 14778, 23087, 27365, 25532, 20467, 7353, 21010, 30227,
   8083, 2936, 31630, 9641, 3096, 30702, 11637, 27108, 8585, 8278, 4474, 4059, 29759, 8576,
   14226, 17809, 12663, 10863, 5986]

/-- The layout that `randomizeObjectPositions` computes from the reference layout of `main`
with the draws `sampleDraws`. -/
def sampleLayout : Layout :=
  { objects := [⟨281, 333, 70, 40⟩, ⟨669, 361, 80, 45⟩, ⟨656, 293, 100, 60⟩,
                ⟨477, 200, 50, 50⟩, ⟨565, 125, 55, 55⟩, ⟨314, 148, 50, 50⟩,
                ⟨571, 187, 95, 95⟩, ⟨787, 165, 95, 95⟩, ⟨453, 110, 50, 50⟩,
                ⟨227, 383, 80, 45⟩, ⟨236, 230, 40, 40⟩, ⟨276, 226, 100, 100⟩],
    ballRect := ⟨409, 163, 16, 16⟩,
    holeRect := ⟨463, 386, 16, 16⟩ }

/-- One iteration of the loop `while (!quit)` of `main`, without the drawing: the pending
events are handled, and `updateBallPosition` is called when the state is `GAME_RUNNING`; after
`close()` the process has ended and nothing more is done. -/
def mainLoopStep (events : List Event) (draws : List Nat) (g : Game) :
    Option (Game × List Nat) :=
  match handleEvents events draws g with
  | none => none
  | some (g', draws') =>
    if g'.closed then some (g', draws')
    else if g'.currentState = GameState.GAME_RUNNING then some (updateBallPosition g', draws')
    else some (g', draws')

/-- The state of `updateBallPosition` at the point where `futureBallRect` is computed: after
the friction step, the integration and the boundary rule. -/
def beforeResolve (g : Game) : Game :=
  integrate (applyFriction g.moveBall g)

/-- The ball about to hit the first obstacle of `main` from the right. -/
def bounceScenario : Game :=
  { initialGame with ballRect := ⟨380, 210, 16, 16⟩, ballVelX := -10 * 2 ^ 149,
                     currentState := GameState.GAME_RUNNING }

/-- The scenario `bounceScenario` with the score counter at `INT_MAX`. -/
def saturatedScenario : Game :=
  { bounceScenario with bounceCount := INT_MAX }

/-! ## Geometry: theorems -/

theorem checkOverlap_eq_true_iff (a b : Rect) :
    checkOverlap a b = true ↔
      b.x < a.x + a.w ∧ b.y < a.y + a.h ∧ a.x < b.x + b.w ∧ a.y < b.y + b.h := by
  simp only [checkOverlap, Bool.not_eq_true', Bool.or_eq_false_iff, decide_eq_false_iff_not,
    not_le, ge_iff_le, and_assoc]

theorem checkOverlap_comm (a b : Rect) : checkOverlap a b = checkOverlap b a := by
  rw [Bool.eq_iff_iff, checkOverlap_eq_true_iff, checkOverlap_eq_true_iff]
  constructor <;> (rintro ⟨h1, h2, h3, h4⟩; exact ⟨h3, h4, h1, h2⟩)

theorem wrapInt32_eq_self (n : Int) (hlo : INT_MIN ≤ n) (hhi : n ≤ INT_MAX) :
    wrapInt32 n = n := by
  unfold wrapInt32
  unfold INT_MIN at hlo
  unfold INT_MAX at hhi
  norm_num
  omega

/-- When no sum overflows, the test on 32-bit `int` is the test without overflow. -/
theorem checkOverlap32_eq_checkOverlap (a b : Rect) (ha : FitsInt32 a) (hb : FitsInt32 b) :
    checkOverlap32 a b = checkOverlap a b := by
  obtain ⟨_, _, _, _, ⟨a1, a2⟩, ⟨a3, a4⟩⟩ := ha
  obtain ⟨_, _, _, _, ⟨b1, b2⟩, ⟨b3, b4⟩⟩ := hb
  unfold checkOverlap32 checkOverlap
  rw [wrapInt32_eq_self _ a1 a2, wrapInt32_eq_self _ a3 a4, wrapInt32_eq_self _ b1 b2,
    wrapInt32_eq_self _ b3 b4]

/-- C1 (counterexample): the rectangle `(5,5,0,0)` has no area, so it shares no region of
positive area with `(0,0,10,10)`, yet `checkOverlap` returns true for the pair; both rectangles
satisfy `w,h >= 0`.  The rectangles `(2147483640,0,10,10)` and `(2147483645,0,10,10)` share a
region of positive area, yet `checkOverlap` returns false for the pair: the sum
`2147483640 + 10` does not fit in an `int` and wraps around to `-2147483646`. -/
theorem checkOverlap_degenerate_rect :
    (0 : Int) ≤ (⟨5, 5, 0, 0⟩ : Rect).w ∧ (0 : Int) ≤ (⟨5, 5, 0, 0⟩ : Rect).h ∧
    (0 : Int) ≤ (⟨0, 0, 10, 10⟩ : Rect).w ∧ (0 : Int) ≤ (⟨0, 0, 10, 10⟩ : Rect).h ∧
    checkOverlap ⟨5, 5, 0, 0⟩ ⟨0, 0, 10, 10⟩ = true ∧
    ¬ positiveAreaOverlap ⟨5, 5, 0, 0⟩ ⟨0, 0, 10, 10⟩ ∧
    checkOverlap32 ⟨5, 5, 0, 0⟩ ⟨0, 0, 10, 10⟩ = true ∧
    FitsInt32 ⟨5, 5, 0, 0⟩ ∧ FitsInt32 ⟨0, 0, 10, 10⟩ ∧
    checkOverlap32 ⟨2147483640, 0, 10, 10⟩ ⟨2147483645, 0, 10, 10⟩ = false ∧
    positiveAreaOverlap ⟨2147483640, 0, 10, 10⟩ ⟨2147483645, 0, 10, 10⟩ ∧
    wrapInt32 (2147483640 + 10) = -2147483646 := by
  decide

/-- C1 (amended): for rectangles of strictly positive width and height whose fields and whose
edges `x + w`, `y + h` are 32-bit `int` values, `checkOverlap` on 32-bit `int` is true if and
only if the rectangles share a region of positive area, so it is false for rectangles that
only touch along an edge or at a corner; on these rectangles it agrees with the test without
overflow. -/
theorem checkOverlap_iff_positiveAreaOverlap (a b : Rect)
    (ha : FitsInt32 a) (hb : FitsInt32 b)
    (haw : 0 < a.w) (hah : 0 < a.h) (hbw : 0 < b.w) (hbh : 0 < b.h) :
    (checkOverlap32 a b = true ↔ positiveAreaOverlap a b) ∧
    checkOverlap32 a b = checkOverlap a b := by
  refine ⟨?_, checkOverlap32_eq_checkOverlap a b ha hb⟩
  rw [checkOverlap32_eq_checkOverlap a b ha hb, checkOverlap_eq_true_iff, positiveAreaOverlap]
  simp only [max_lt_iff, lt_min_iff]
  omega

/-- C1 (witness): two squares of side 10 that touch along an edge. -/
theorem checkOverlap_iff_positiveAreaOverlap_witness :
    FitsInt32 ⟨0, 0, 10, 10⟩ ∧ FitsInt32 ⟨10, 0, 10, 10⟩ ∧
    (0 : Int) < (⟨0, 0, 10, 10⟩ : Rect).w ∧ (0 : Int) < (⟨10, 0, 10, 10⟩ : Rect).w ∧
    checkOverlap32 ⟨0, 0, 10, 10⟩ ⟨10, 0, 10, 10⟩ = false ∧
    (checkOverlap32 ⟨0, 0, 10, 10⟩ ⟨10, 0, 10, 10⟩ = true ↔
      positiveAreaOverlap ⟨0, 0, 10, 10⟩ ⟨10, 0, 10, 10⟩) :=
  ⟨by decide, by decide, by decide, by decide, by decide,
   (checkOverlap_iff_positiveAreaOverlap ⟨0, 0, 10, 10⟩ ⟨10, 0, 10, 10⟩
     (by decide) (by decide) (by decide) (by decide) (by decide) (by decide)).1⟩

/-! ## Layout randomizer: theorems -/

theorem overlapsOtherObject_eq_false (objects : List Rect) (i : Nat)
    (h : overlapsOtherObject objects i = false) (j : Nat) (hj : j < objects.length)
    (hij : i ≠ j) :
    checkOverlap (objects.getD i default) (objects.getD j default) = false := by
  unfold overlapsOtherObject at h
  rw [List.any_eq_false] at h
  have := h j (List.mem_range.mpr hj)
  simpa [hij] using this

theorem overlapsAnyObject_eq_false (r : Rect) (objects : List Rect)
    (h : overlapsAnyObject r objects = false) (o : Rect) (ho : o ∈ objects) :
    checkOverlap r o = false := by
  unfold overlapsAnyObject at h
  rw [List.any_eq_false] at h
  simpa using h o ho



theorem getD_set_of_ne (objects : List Rect) (i j : Nat) (r : Rect) (h : j ≠ i) :
    (objects.set i r).getD j default = objects.getD j default := by
  simp only [List.getD_eq_getElem?_getD, List.getElem?_set]
  rw [if_neg (Ne.symm h)]

/-- What the placement loop of obstacle `i` guarantees when it returns: only entry `i` has
changed, and it overlaps no other entry. -/
theorem placeObject_spec (i : Nat) (objects : List Rect) (draws : List Nat) :
    ∀ (objects' : List Rect) (rest : List Nat),
      placeObject i objects draws = some (objects', rest) →
        objects'.length = objects.length ∧
        (∀ j, j ≠ i → objects'.getD j default = objects.getD j default) ∧
        overlapsOtherObject objects' i = false := by
  induction objects, draws using placeObject.induct i with
  | case1 objects rx ry rest objects1 hov ih =>
    intro objects' rest' h
    rw [placeObject] at h
    simp only [objects1] at hov ih
    simp only [hov, ↓reduceIte] at h
    obtain ⟨h1, h2, h3⟩ := ih objects' rest' h
    refine ⟨?_, ?_, h3⟩
    · rw [h1, List.length_set]
    · intro j hj
      rw [h2 j hj, getD_set_of_ne _ _ _ _ hj]
  | case2 objects rx ry rest objects1 hov =>
    intro objects' rest' h
    rw [placeObject] at h
    simp only [objects1] at hov
    simp only [hov, Bool.false_eq_true, ↓reduceIte, Option.some.injEq, Prod.mk.injEq] at h
    obtain ⟨h1, _⟩ := h
    subst h1
    refine ⟨List.length_set _ _ _, ?_, by simpa using hov⟩
    intro j hj
    exact getD_set_of_ne _ _ _ _ hj
  | case3 t x hne =>
    intro objects' rest' h
    rw [placeObject] at h
    · cases h
    · exact hne

theorem placeObjectsFrom_spec (remaining : Nat) :
    ∀ (i : Nat) (objects : List Rect) (draws : List Nat) (objects' : List Rect)
      (rest : List Nat), i + remaining ≤ objects.length → PlacedApart i objects →
      placeObjectsFrom remaining i objects draws = some (objects', rest) →
        objects'.length = objects.length ∧ PlacedApart (i + remaining) objects' := by
  induction remaining with
  | zero =>
    intro i objects draws objects' rest _ hinv h
    simp only [placeObjectsFrom, Option.some.injEq, Prod.mk.injEq] at h
    obtain ⟨h1, _⟩ := h
    subst h1
    exact ⟨rfl, hinv⟩
  | succ n ih =>
    intro i objects draws objects' rest hlen hinv h
    rw [placeObjectsFrom] at h
    cases hp : placeObject i objects draws with
    | none => rw [hp] at h; cases h
    | some p =>
      obtain ⟨o1, d1⟩ := p
      rw [hp] at h
      simp only at h
      obtain ⟨hl1, hsame, hov⟩ := placeObject_spec i objects draws o1 d1 hp
      have hinv1 : PlacedApart (i + 1) o1 := by
        intro a b ha hb hab
        by_cases hai : a = i
        · subst hai
          exact overlapsOtherObject_eq_false o1 a hov b (by omega) hab
        · by_cases hbi : b = i
          · subst hbi
            rw [checkOverlap_comm]
            exact overlapsOtherObject_eq_false o1 b hov a (by omega) (Ne.symm hab)
          · rw [hsame a hai, hsame b hbi]
            exact hinv a b (by omega) (by omega) hab
      obtain ⟨hl2, hfin⟩ := ih (i + 1) o1 d1 objects' rest (by omega) hinv1 h
      refine ⟨by rw [hl2, hl1], ?_⟩
      have : i + (n + 1) = i + 1 + n := by omega
      rw [this]
      exact hfin

theorem randomPosition_repositioned (r : Rect) (rx ry : Nat) :
    Repositioned r (randomPosition r rx ry) := by
  have hx : rx % 700 < 700 := Nat.mod_lt _ (by norm_num)
  have hy : ry % 300 < 300 := Nat.mod_lt _ (by norm_num)
  refine ⟨rfl, rfl, ?_⟩
  show 100 ≤ minD + ((rx % BOUNDARY_WIDTH : Nat) : Int) ∧
    minD + ((rx % BOUNDARY_WIDTH : Nat) : Int) < 800 ∧
    100 ≤ minD + ((ry % BOUNDARY_HEIGHT : Nat) : Int) ∧
    minD + ((ry % BOUNDARY_HEIGHT : Nat) : Int) < 400
  simp only [minD, BOUNDARY_WIDTH, BOUNDARY_HEIGHT]
  omega

theorem Repositioned.of_step {r r1 r2 : Rect} (h1 : Repositioned r r1)
    (h2 : Repositioned r1 r2) : Repositioned r r2 := by
  obtain ⟨a1, a2, _⟩ := h1
  obtain ⟨b1, b2, b3⟩ := h2
  exact ⟨b1.trans a1, b2.trans a2, b3⟩

theorem placeBall_spec (objects : List Rect) (ballRect : Rect) (draws : List Nat) :
    ∀ (ballRect' : Rect) (rest : List Nat),
      placeBall objects ballRect draws = some (ballRect', rest) →
        Repositioned ballRect ballRect' ∧ overlapsAnyObject ballRect' objects = false := by
  induction ballRect, draws using placeBall.induct objects with
  | case1 ballRect rx ry rest b1 hov ih =>
    intro ballRect' rest' h
    rw [placeBall] at h
    simp only [b1] at hov ih
    simp only [hov, ↓reduceIte] at h
    obtain ⟨h1, h2⟩ := ih ballRect' rest' h
    exact ⟨(randomPosition_repositioned ballRect rx ry).of_step h1, h2⟩
  | case2 ballRect rx ry rest b1 hov =>
    intro ballRect' rest' h
    rw [placeBall] at h
    simp only [b1] at hov
    simp only [hov, Bool.false_eq_true, ↓reduceIte, Option.some.injEq, Prod.mk.injEq] at h
    obtain ⟨h1, _⟩ := h
    subst h1
    exact ⟨randomPosition_repositioned ballRect rx ry, by simpa using hov⟩
  | case3 t x hne =>
    intro ballRect' rest' h
    rw [placeBall] at h
    · cases h
    · exact hne

theorem placeHole_spec (objects : List Rect) (ballRect holeRect : Rect) (draws : List Nat) :
    ∀ (holeRect' : Rect) (rest : List Nat),
      placeHole objects ballRect holeRect draws = some (holeRect', rest) →
        Repositioned holeRect holeRect' ∧ overlapsAnyObject holeRect' objects = false ∧
        checkOverlap holeRect' ballRect = false := by
  induction holeRect, draws using placeHole.induct objects ballRect with
  | case1 holeRect rx ry rest b1 hov ih =>
    intro holeRect' rest' h
    rw [placeHole] at h
    simp only [b1] at hov ih
    simp only [hov, ↓reduceIte] at h
    obtain ⟨h1, h2⟩ := ih holeRect' rest' h
    exact ⟨(randomPosition_repositioned holeRect rx ry).of_step h1, h2⟩
  | case2 holeRect rx ry rest b1 hov =>
    intro holeRect' rest' h
    rw [placeHole] at h
    simp only [b1] at hov
    simp only [hov, Bool.false_eq_true, ↓reduceIte, Option.some.injEq, Prod.mk.injEq] at h
    obtain ⟨h1, _⟩ := h
    subst h1
    simp only [Bool.or_eq_true, not_or, Bool.not_eq_true] at hov
    exact ⟨randomPosition_repositioned holeRect rx ry, hov.1, hov.2⟩
  | case3 t x hne =>
    intro holeRect' rest' h
    rw [placeHole] at h
    · cases h
    · exact hne

/-- The three placement phases of `randomizeObjectPositions`, when all of them return. -/
theorem randomizeObjectPositions_phases (objects : List Rect) (ballRect holeRect : Rect)
    (draws : List Nat) (l : Layout) (rest : List Nat)
    (h : randomizeObjectPositions objects ballRect holeRect draws = some (l, rest)) :
    ∃ d1 d2, placeObjectsFrom objects.length 0 objects draws = some (l.objects, d1) ∧
      placeBall l.objects ballRect d1 = some (l.ballRect, d2) ∧
      placeHole l.objects l.ballRect holeRect d2 = some (l.holeRect, rest) := by
  unfold randomizeObjectPositions at h
  cases h1 : placeObjectsFrom objects.length 0 objects draws with
  | none => rw [h1] at h; cases h
  | some p1 =>
    obtain ⟨o1, d1⟩ := p1
    rw [h1] at h
    simp only at h
    cases h2 : placeBall o1 ballRect d1 with
    | none => rw [h2] at h; cases h
    | some p2 =>
      obtain ⟨b2, d2⟩ := p2
      rw [h2] at h
      simp only at h
      cases h3 : placeHole o1 b2 holeRect d2 with
      | none => rw [h3] at h; cases h
      | some p3 =>
        obtain ⟨h3r, d3⟩ := p3
        rw [h3] at h
        simp only [Option.some.injEq, Prod.mk.injEq] at h
        obtain ⟨hl, hr⟩ := h
        subst hl hr
        exact ⟨d1, d2, rfl, h2, h3⟩

theorem randomizeObjectPositions_apart (objects : List Rect) (ballRect holeRect : Rect)
    (draws : List Nat) (l : Layout) (rest : List Nat)
    (h : randomizeObjectPositions objects ballRect holeRect draws = some (l, rest)) :
    NoOverlaps l := by
  obtain ⟨d1, d2, h1, h2, h3⟩ := randomizeObjectPositions_phases _ _ _ _ _ _ h
  obtain ⟨hlen, hinv⟩ := placeObjectsFrom_spec objects.length 0 objects draws l.objects d1
    (by omega) (fun a b ha => absurd ha (Nat.not_lt_zero a)) h1
  obtain ⟨_, hb⟩ := placeBall_spec _ _ _ _ _ h2
  obtain ⟨_, hh1, hh2⟩ := placeHole_spec _ _ _ _ _ _ h3
  refine ⟨?_, overlapsAnyObject_eq_false _ _ hb, overlapsAnyObject_eq_false _ _ hh1, hh2⟩
  intro i j hi hj hij
  exact hinv i j (by omega) (by omega) hij

/-- C2: whenever `randomizeObjectPositions` returns, no two distinct obstacles overlap, the
ball overlaps no obstacle, and the hole overlaps neither an obstacle nor the ball, overlap
being decided by `checkOverlap`. -/
theorem randomizeObjectPositions_noOverlaps (objects : List Rect) (ballRect holeRect : Rect)
    (draws : List Nat) (l : Layout) (rest : List Nat)
    (h : randomizeObjectPositions objects ballRect holeRect draws = some (l, rest)) :
    NoOverlaps l :=
  randomizeObjectPositions_apart objects ballRect holeRect draws l rest h

/-- C2 (witness): with the reference layout of `main` and the draws `sampleDraws` the
randomizer returns `sampleLayout`, which has no overlapping pair. -/
theorem randomizeObjectPositions_noOverlaps_witness :
    randomizeObjectPositions referenceObjects ⟨480, 270, 16, 16⟩ referenceHole sampleDraws =
      some (sampleLayout, []) ∧ NoOverlaps sampleLayout :=
  ⟨by decide,
   randomizeObjectPositions_noOverlaps referenceObjects ⟨480, 270, 16, 16⟩ referenceHole
     sampleDraws sampleLayout [] (by decide)⟩

/-! ## Reflection: theorems -/

theorem checkCollision_eq_false_of_apart_x (a b : Rect)
    (h : a.x + a.w ≤ b.x ∨ b.x + b.w ≤ a.x) : checkCollision a b = false := by
  unfold checkCollision SDL_HasIntersection
  split
  · rfl
  · rename_i hpos
    simp only [not_or, not_le] at hpos
    have : ¬ (max a.x b.x < min (a.x + a.w) (b.x + b.w)) := by
      simp only [max_lt_iff, lt_min_iff]
      omega
    simp [this]

theorem checkCollision_eq_false_of_apart_y (a b : Rect)
    (h : a.y + a.h ≤ b.y ∨ b.y + b.h ≤ a.y) : checkCollision a b = false := by
  unfold checkCollision SDL_HasIntersection
  split
  · rfl
  · rename_i hpos
    simp only [not_or, not_le] at hpos
    have : ¬ (max a.y b.y < min (a.y + a.h) (b.y + b.h)) := by
      simp only [max_lt_iff, lt_min_iff]
      omega
    simp [this]

/-- C5 (counterexample): in the scenario of the spec, with the single obstacle
`(300,200,70,40)` as well as with the twelve obstacles of `main`, one call of
`updateBallPosition` leaves the score counter at 0 and the x velocity negative: the tentative
rectangle `(444,270,16,16)` intersects no obstacle. -/
theorem updateBallPosition_scenario_no_bounce :
    (updateBallPosition (collisionScenario [⟨300, 200, 70, 40⟩])).bounceCount = 0 ∧
    (updateBallPosition (collisionScenario [⟨300, 200, 70, 40⟩])).ballVelX < 0 ∧
    (updateBallPosition (collisionScenario referenceObjects)).bounceCount = 0 ∧
    (updateBallPosition (collisionScenario referenceObjects)).ballVelX < 0 ∧
    futureBallRect (integrate (applyFriction false (collisionScenario referenceObjects))) =
      ⟨444, 270, 16, 16⟩ ∧
    checkCollision ⟨444, 270, 16, 16⟩ ⟨300, 200, 70, 40⟩ = false := by
  decide

/-- C5 (amended): in the scenario of the spec, with the single obstacle `(300,200,70,40)` as
well as with the twelve obstacles of `main`, one call of `updateBallPosition` detects no
collision: the score counter stays 0, friction makes the velocity `(-18,0)`, the ball moves
to `(444,270)`, and nothing else changes. -/
theorem updateBallPosition_scenario :
    updateBallPosition (collisionScenario [⟨300, 200, 70, 40⟩]) =
      { collisionScenario [⟨300, 200, 70, 40⟩] with
          ballRect := ⟨444, 270, 16, 16⟩, ballVelX := -18 * 2 ^ 149, ballVelY := 0 } ∧
    updateBallPosition (collisionScenario referenceObjects) =
      { collisionScenario referenceObjects with
          ballRect := ⟨444, 270, 16, 16⟩, ballVelX := -18 * 2 ^ 149, ballVelY := 0 } ∧
    (collisionScenario referenceObjects).bounceCount = 0 := by
  decide

/-! ## Input interpreter: theorems -/

/-- C6 (the code at the failing input): in state `GAME_RUNNING` an Escape key press is taken
by the branch `else if (currentState == GAME_RUNNING)`, which only handles mouse buttons; the
event changes nothing and `close()` is not called. -/
theorem handleEvent_escape_while_running (g : Game) (e : Event) (draws : List Nat)
    (hs : g.currentState = GameState.GAME_RUNNING) :
    handleEvent { e with type := EventType.SDL_KEYDOWN, sym := SDLK_ESCAPE } draws g =
      some (g, draws) := by
  unfold handleEvent
  simp [hs]

/-- C6 (witness): the Escape key pressed in the running game with the ball at rest. -/
theorem handleEvent_escape_while_running_witness :
    ({ initialGame with currentState := GameState.GAME_RUNNING } : Game).currentState =
      GameState.GAME_RUNNING ∧
    ({ initialGame with currentState := GameState.GAME_RUNNING } : Game).closed = false ∧
    handleEvent { keyDown 0 with type := EventType.SDL_KEYDOWN, sym := SDLK_ESCAPE } []
        { initialGame with currentState := GameState.GAME_RUNNING } =
      some ({ initialGame with currentState := GameState.GAME_RUNNING }, []) :=
  ⟨rfl, rfl, handleEvent_escape_while_running
    { initialGame with currentState := GameState.GAME_RUNNING } (keyDown 0) [] rfl⟩

/-! ## binary32 rounding: theorems -/

/-- The four float literals of the source are the binary32 values nearest to `0.9`, `0.1`,
`0.05` and `0.8`: each has a 24 bit significand and differs from the decimal value by less
than half a unit in the last place. -/
theorem literals_nearest :
    |FRICTION * 10 - 9 * 2 ^ 149| * 2 < 10 * 2 ^ 125 ∧
    |lit_0_1f * 10 - 1 * 2 ^ 149| * 2 < 10 * 2 ^ 122 ∧
    |lit_0_05f * 100 - 5 * 2 ^ 149| * 2 < 100 * 2 ^ 121 ∧
    |lit_0_8f * 10 - 8 * 2 ^ 149| * 2 < 10 * 2 ^ 125 ∧
    f32Round FRICTION 0 = FRICTION ∧ f32Round lit_0_1f 0 = lit_0_1f ∧
    f32Round lit_0_05f 0 = lit_0_05f ∧ f32Round lit_0_8f 0 = lit_0_8f := by
  decide

/-- Rounding on small cases: 24 bit integers and powers of two are exact, `2^24 + 1` is a tie
and goes to the even neighbour `2^24`, `2^24 + 3` is a tie and goes to `2^24 + 4`, the smallest
subnormal is kept, and half of it is a tie that goes to 0. -/
theorem f32Round_examples :
    f32OfInt 16 = 16 * 2 ^ 149 ∧ f32OfInt (-18) = -18 * 2 ^ 149 ∧
    f32OfInt (2 ^ 24 - 1) = (2 ^ 24 - 1) * 2 ^ 149 ∧
    f32OfInt (2 ^ 24 + 1) = 2 ^ 24 * 2 ^ 149 ∧
    f32OfInt (2 ^ 24 + 3) = (2 ^ 24 + 4) * 2 ^ 149 ∧
    f32OfInt (-(2 ^ 24 + 3)) = -(2 ^ 24 + 4) * 2 ^ 149 ∧
    f32Round 1 0 = 1 ∧ f32Round 1 1 = 0 ∧ f32Round 3 1 = 2 ∧
    f32ToInt (-37 * 2 ^ 148) = -18 ∧ f32ToInt (37 * 2 ^ 148) = 18 := by
  decide

theorem excessBits_spec (fuel : Nat) :
    ∀ a, a ≤ fuel → a < 2 ^ (24 + excessBits fuel a) ∧
      (0 < excessBits fuel a → 2 ^ (23 + excessBits fuel a) ≤ a) := by
  induction fuel with
  | zero =>
    intro a ha
    have : a = 0 := by omega
    subst this
    simp [excessBits]
  | succ n ih =>
    intro a ha
    rw [excessBits]
    split
    · rename_i hlt
      exact ⟨by simpa using hlt, fun h => absurd h (by simp)⟩
    · rename_i hge
      have hge' : 2 ^ 24 ≤ a := not_lt.mp hge
      have h1 : (2:ℕ) ^ 24 = 16777216 := by norm_num
      have hhalf : a / 2 ≤ n := by omega
      obtain ⟨hlt, hpos⟩ := ih (a / 2) hhalf
      have e1 : 2 ^ (24 + (excessBits n (a / 2) + 1)) = 2 * 2 ^ (24 + excessBits n (a / 2)) := by
        rw [← Nat.add_assoc, pow_succ]; ring
      have e2 : 2 ^ (23 + (excessBits n (a / 2) + 1)) = 2 * 2 ^ (23 + excessBits n (a / 2)) := by
        rw [← Nat.add_assoc, pow_succ]; ring
      refine ⟨by rw [e1]; omega, fun _ => ?_⟩
      rw [e2]
      by_cases h0 : 0 < excessBits n (a / 2)
      · have := hpos h0
        omega
      · have h0' : excessBits n (a / 2) = 0 := by omega
        rw [h0']
        simp only [Nat.add_zero]
        have : (2:ℕ) ^ 23 = 8388608 := by norm_num
        omega

theorem f32Round_natAbs_le (m : Int) (k : Nat) :
    (f32Round m k).natAbs ≤ 2 ^ 23 ∨
      (f32Round m k).natAbs * 2 ^ k * 2 ^ 23 ≤ m.natAbs * (2 ^ 23 + 1) := by
  obtain ⟨hlt, hpos⟩ := excessBits_spec m.natAbs m.natAbs le_rfl
  unfold f32Round
  simp only []
  generalize m.natAbs = a at hlt hpos ⊢
  generalize hs : max (excessBits a a) k = s
  generalize hq' : (if 2 ^ s < 2 * (a % 2 ^ s) ∨ (2 * (a % 2 ^ s) = 2 ^ s ∧ a / 2 ^ s % 2 = 1)
    then a / 2 ^ s + 1 else a / 2 ^ s) = q'
  have hq'le : q' ≤ a / 2 ^ s + 1 := by
    rw [← hq']; split <;> omega
  have hks : k ≤ s := by rw [← hs]; exact le_max_right _ _
  have hR : (Int.sign m * ((q' * 2 ^ (s - k) : Nat) : Int)).natAbs ≤ q' * 2 ^ (s - k) := by
    rw [Int.natAbs_mul, Int.natAbs_sign, Int.natAbs_ofNat]
    split <;> omega
  have hpow : 2 ^ (s - k) * 2 ^ k = 2 ^ s := by
    rw [← pow_add]; congr 1; omega
  have hqs : a / 2 ^ s * 2 ^ s ≤ a := Nat.div_mul_le_self a (2 ^ s)
  by_cases hbig : 2 ^ (23 + s) ≤ a
  · right
    have h23 : 2 ^ (23 + s) = 2 ^ s * 2 ^ 23 := by rw [pow_add]; ring
    calc (Int.sign m * ((q' * 2 ^ (s - k) : Nat) : Int)).natAbs * 2 ^ k * 2 ^ 23
        ≤ q' * 2 ^ (s - k) * 2 ^ k * 2 ^ 23 := by gcongr
      _ = q' * 2 ^ s * 2 ^ 23 := by rw [mul_assoc q', hpow]
      _ ≤ (a / 2 ^ s + 1) * 2 ^ s * 2 ^ 23 := by gcongr
      _ = a / 2 ^ s * 2 ^ s * 2 ^ 23 + 2 ^ s * 2 ^ 23 := by ring
      _ ≤ a * 2 ^ 23 + a := by rw [← h23]; gcongr
      _ = a * (2 ^ 23 + 1) := by ring
  · left
    have hsk : s = k := by
      by_contra hne
      have hse : s = excessBits a a := by
        rw [← hs]; rw [← hs] at hne
        rcases le_total (excessBits a a) k with h | h
        · rw [max_eq_right h] at hne; exact absurd rfl hne
        · exact max_eq_left h
      have : 0 < excessBits a a := by omega
      have := hpos this
      rw [← hse] at this
      exact hbig this
    have hqlt : a / 2 ^ s < 2 ^ 23 := by
      rw [Nat.div_lt_iff_lt_mul (by positivity)]
      have : 2 ^ (23 + s) = 2 ^ 23 * 2 ^ s := by rw [pow_add]
      omega
    calc (Int.sign m * ((q' * 2 ^ (s - k) : Nat) : Int)).natAbs
        ≤ q' * 2 ^ (s - k) := hR
      _ = q' := by rw [hsk]; simp
      _ ≤ 2 ^ 23 := by omega
/-! ## Friction: theorems -/

theorem frictionStep_zero : frictionStep 0 = 0 := by decide

theorem frictionStep_iterate_zero (n : Nat) : frictionStep^[n] 0 = 0 := by
  induction n with
  | zero => rfl
  | succ n ih => rw [Function.iterate_succ_apply', ih, frictionStep_zero]

theorem decayed_zero {v : F32} (h : |v| ≤ 40 * 2 ^ 149) : Decayed 0 v := by
  right
  simp only [pow_zero, mul_one]
  rw [Int.abs_eq_natAbs] at h
  exact_mod_cast h

theorem decayed_mul {n : Nat} {v : F32} (h : Decayed n v) :
    Decayed (n + 1) (f32Mul v FRICTION) := by
  have hN : (15099494 * (2 ^ 23 + 1) : ℕ) < 2 ^ 47 := by norm_num
  have hmul : (v * FRICTION).natAbs = v.natAbs * (15099494 * 2 ^ 125) := by
    rw [Int.natAbs_mul]
    rfl
  rcases f32Round_natAbs_le (v * FRICTION) 149 with hsmall | hrel
  · exact Or.inl hsmall
  · rw [hmul] at hrel
    have hrel' : (f32Mul v FRICTION).natAbs * 2 ^ 47 ≤
        v.natAbs * (15099494 * (2 ^ 23 + 1)) := by
      have e1 : (f32Round (v * FRICTION) 149).natAbs * 2 ^ 149 * 2 ^ 23 =
          ((f32Round (v * FRICTION) 149).natAbs * 2 ^ 47) * 2 ^ 125 := by ring
      have e2 : v.natAbs * (15099494 * 2 ^ 125) * (2 ^ 23 + 1) =
          (v.natAbs * (15099494 * (2 ^ 23 + 1))) * 2 ^ 125 := by ring
      rw [e1, e2] at hrel
      exact Nat.le_of_mul_le_mul_right hrel (by positivity)
    rcases h with hv | hv
    · left
      by_contra hcon
      have hcon' : 2 ^ 23 < (f32Mul v FRICTION).natAbs := not_le.mp hcon
      have h1 : 2 ^ 23 * 2 ^ 47 < (f32Mul v FRICTION).natAbs * 2 ^ 47 :=
        Nat.mul_lt_mul_of_pos_right hcon' (by positivity)
      have h2 : v.natAbs * (15099494 * (2 ^ 23 + 1)) ≤ 2 ^ 23 * (15099494 * (2 ^ 23 + 1)) :=
        Nat.mul_le_mul_right _ hv
      have h3 : 2 ^ 23 * (15099494 * (2 ^ 23 + 1)) < 2 ^ 23 * 2 ^ 47 :=
        Nat.mul_lt_mul_of_pos_left hN (by positivity)
      omega
    · right
      calc (f32Mul v FRICTION).natAbs * (2 ^ 47) ^ (n + 1)
          = (f32Mul v FRICTION).natAbs * 2 ^ 47 * (2 ^ 47) ^ n := by ring
        _ ≤ v.natAbs * (15099494 * (2 ^ 23 + 1)) * (2 ^ 47) ^ n := by gcongr
        _ = v.natAbs * (2 ^ 47) ^ n * (15099494 * (2 ^ 23 + 1)) := by ring
        _ ≤ (40 * 2 ^ 149) * (15099494 * (2 ^ 23 + 1)) ^ n * (15099494 * (2 ^ 23 + 1)) := by
            gcongr
        _ = (40 * 2 ^ 149) * (15099494 * (2 ^ 23 + 1)) ^ (n + 1) := by ring

theorem decayed_frictionStep {n : Nat} {v : F32} (h : Decayed n v) :
    Decayed (n + 1) (frictionStep v) := by
  unfold frictionStep
  simp only []
  split
  · left; simp
  · exact decayed_mul h

theorem decayed_iterate {v : F32} (h : |v| ≤ 40 * 2 ^ 149) (n : Nat) :
    Decayed n (frictionStep^[n] v) := by
  induction n with
  | zero => exact decayed_zero h
  | succ n ih =>
    rw [Function.iterate_succ_apply']
    exact decayed_frictionStep ih

theorem decayed_lt_threshold {v : F32} (h : Decayed 57 v) : |v| < lit_0_1f := by
  have hthr : ((2:ℕ) ^ 23) < 13421773 * 2 ^ 122 := by norm_num
  have hnum : (40 * 2 ^ 149) * (15099494 * (2 ^ 23 + 1)) ^ 57 <
      (13421773 * 2 ^ 122) * ((2:ℕ) ^ 47) ^ 57 := by norm_num
  have hnat : v.natAbs < 13421773 * 2 ^ 122 := by
    rcases h with h | h
    · omega
    · by_contra hcon
      have hcon' : 13421773 * 2 ^ 122 ≤ v.natAbs := not_lt.mp hcon
      have := Nat.mul_le_mul_right ((2 ^ 47) ^ 57) hcon'
      omega
  rw [Int.abs_eq_natAbs]
  unfold lit_0_1f
  exact_mod_cast hnat

theorem frictionStep_eq_zero {v : F32} (h : |f32Mul v FRICTION| < lit_0_1f) :
    frictionStep v = 0 := by
  unfold frictionStep
  simp only []
  rw [if_pos h]

theorem frictionStep_iterate_rest {v : F32} (h : |v| ≤ 40 * 2 ^ 149) (n : Nat)
    (hn : 57 ≤ n) : frictionStep^[n] v = 0 := by
  have h57 : frictionStep^[57] v = 0 := by
    rw [Function.iterate_succ_apply']
    have hd : Decayed 57 (f32Mul (frictionStep^[56] v) FRICTION) := decayed_mul (decayed_iterate h 56)
    exact frictionStep_eq_zero (decayed_lt_threshold hd)
  obtain ⟨m, rfl⟩ := Nat.exists_eq_add_of_le hn
  rw [Nat.add_comm, Function.iterate_add_apply, h57, frictionStep_iterate_zero]

theorem applyFriction_iterate_vel (n : Nat) :
    ∀ g : Game, ((applyFriction false)^[n] g).ballVelX = frictionStep^[n] g.ballVelX ∧
      ((applyFriction false)^[n] g).ballVelY = frictionStep^[n] g.ballVelY := by
  induction n with
  | zero => intro g; exact ⟨rfl, rfl⟩
  | succ n ih =>
    intro g
    rw [Function.iterate_succ_apply, Function.iterate_succ_apply, Function.iterate_succ_apply]
    exact ih (applyFriction false g)

/-- C8: the friction step of `updateBallPosition` maps the velocity `(10,0)` to `(9,0)`, and
from every velocity whose components have absolute value at most 40 (`40 * 2^149` units of
`2^-149`) repeated friction steps give exactly `(0,0)` after 57 steps and after every larger
number of steps. -/
theorem friction_comes_to_rest (g : Game) (hx : |g.ballVelX| ≤ 40 * 2 ^ 149)
    (hy : |g.ballVelY| ≤ 40 * 2 ^ 149) :
    ((applyFriction false { g with ballVelX := 10 * 2 ^ 149, ballVelY := 0 }).ballVelX
        = 9 * 2 ^ 149 ∧
      (applyFriction false { g with ballVelX := 10 * 2 ^ 149, ballVelY := 0 }).ballVelY = 0) ∧
    ∀ n, 57 ≤ n → ((applyFriction false)^[n] g).ballVelX = 0 ∧
      ((applyFriction false)^[n] g).ballVelY = 0 := by
  have h10 : frictionStep (10 * 2 ^ 149) = 9 * 2 ^ 149 := by decide
  refine ⟨⟨?_, ?_⟩, ?_⟩
  · simp only [applyFriction, Bool.false_eq_true, ↓reduceIte]
    exact h10
  · simp only [applyFriction, Bool.false_eq_true, ↓reduceIte]
    exact frictionStep_zero
  · intro n hn
    obtain ⟨h1, h2⟩ := applyFriction_iterate_vel n g
    rw [h1, h2]
    exact ⟨frictionStep_iterate_rest hx n hn, frictionStep_iterate_rest hy n hn⟩

/-- C8 (witness): the ball of the collision scenario, velocity `(-20,0)`. -/
theorem friction_comes_to_rest_witness :
    |(collisionScenario []).ballVelX| ≤ 40 * 2 ^ 149 ∧
    |(collisionScenario []).ballVelY| ≤ 40 * 2 ^ 149 ∧
    ((applyFriction false)^[57] (collisionScenario [])).ballVelX = 0 ∧
    ((applyFriction false)^[57] (collisionScenario [])).ballVelY = 0 :=
  ⟨by decide, by decide,
   (friction_comes_to_rest (collisionScenario []) (by decide) (by decide)).2 57 le_rfl⟩

/-! ## Restart: theorems -/

/-- C7 (counterexample): in the completed game with the layout of `main`, the Return key and
the draws `sampleDraws` yield a running game whose ball is at `(409,163)`, where the
randomizer has put it, not at the screen centre `(480,270)`. -/
theorem handleEvent_restart_ball_not_centered :
    completedGame.currentState = GameState.GAME_COMPLETED ∧
    (handleEvent (keyDown SDLK_RETURN) sampleDraws completedGame).map
        (fun p => (p.1.currentState, p.1.ballRect)) =
      some (GameState.GAME_RUNNING, ⟨409, 163, 16, 16⟩) ∧
    (⟨409, 163, 16, 16⟩ : Rect) ≠ ⟨480, 270, 16, 16⟩ := by
  decide

/-- C7 (amended): in state `GAME_COMPLETED`, handling an event that is not the window-close
event and whose key is Return yields, whenever the randomizer returns: score counter 0, state
`GAME_RUNNING`, velocity `(0,0)`, ball size 16x16, the ball at the position drawn by the
randomizer, `100 <= x < 800` and `100 <= y < 400`, and a layout without overlapping pair. -/
theorem handleEvent_restart (g g' : Game) (e : Event) (draws rest : List Nat)
    (hs : g.currentState = GameState.GAME_COMPLETED) (ht : e.type ≠ EventType.SDL_QUIT)
    (hk : e.sym = SDLK_RETURN) (h : handleEvent e draws g = some (g', rest)) :
    g'.bounceCount = 0 ∧ g'.currentState = GameState.GAME_RUNNING ∧
    g'.ballVelX = 0 ∧ g'.ballVelY = 0 ∧ g'.ballRect.w = 16 ∧ g'.ballRect.h = 16 ∧
    100 ≤ g'.ballRect.x ∧ g'.ballRect.x < 800 ∧ 100 ≤ g'.ballRect.y ∧ g'.ballRect.y < 400 ∧
    NoOverlaps ⟨g'.objects, g'.ballRect, g'.holeRect⟩ := by
  unfold handleEvent at h
  rw [if_neg ht] at h
  simp only [hs, hk, reduceCtorEq, false_and, ↓reduceIte, true_and] at h
  cases hr : randomizeObjectPositions g.objects
      ⟨Int.tdiv SCREEN_WIDTH 2, Int.tdiv SCREEN_HEIGHT 2, BALL_SIZE, BALL_SIZE⟩ g.holeRect
      draws with
  | none => rw [hr] at h; cases h
  | some p =>
    obtain ⟨l, d⟩ := p
    rw [hr] at h
    simp only [Option.some.injEq, Prod.mk.injEq] at h
    obtain ⟨hg, _⟩ := h
    subst hg
    obtain ⟨d1, d2, _, h2, _⟩ := randomizeObjectPositions_phases _ _ _ _ _ _ hr
    obtain ⟨⟨hw, hh, hpos⟩, _⟩ := placeBall_spec _ _ _ _ _ h2
    have hno := randomizeObjectPositions_apart _ _ _ _ _ _ hr
    exact ⟨rfl, rfl, rfl, rfl, hw, hh, hpos.1, hpos.2.1, hpos.2.2.1, hpos.2.2.2, hno⟩

/-- C7 (witness): the completed game with the layout of `main`, the Return key and the draws
`sampleDraws`. -/
theorem handleEvent_restart_witness :
    completedGame.currentState = GameState.GAME_COMPLETED ∧
    handleEvent (keyDown SDLK_RETURN) sampleDraws completedGame =
      some ({ completedGame with
                ballRect := sampleLayout.ballRect, objects := sampleLayout.objects,
                holeRect := sampleLayout.holeRect,
                currentState := GameState.GAME_RUNNING }, []) ∧
    NoOverlaps sampleLayout :=
  ⟨rfl, by decide,
   (handleEvent_restart completedGame
      { completedGame with
          ballRect := sampleLayout.ballRect, objects := sampleLayout.objects,
          holeRect := sampleLayout.holeRect, currentState := GameState.GAME_RUNNING }
      (keyDown SDLK_RETURN) sampleDraws [] rfl (by decide) rfl (by decide)).2.2.2.2.2.2.2.2.2.2⟩

/-! ## Capture: theorems -/

theorem animation_first_tick :
    f32Add 0 lit_0_05f = lit_0_05f ∧
    f32ToInt (f32Mul (f32OfInt BALL_SIZE) (f32Sub lit_0_8f lit_0_05f)) = 12 := by
  decide

theorem animation_second_tick :
    f32Add lit_0_05f lit_0_05f = lit_0_1f ∧
    f32ToInt (f32Mul (f32OfInt BALL_SIZE) (f32Sub lit_0_8f lit_0_1f)) = 11 := by
  decide

theorem animateCapture_shrink (g : Game) (hw : 12 ≤ g.ballRect.w) :
    animateCapture g =
      resized g (f32Add g.animationProgress lit_0_05f)
        (f32ToInt (f32Mul (f32OfInt BALL_SIZE)
          (f32Sub lit_0_8f (f32Add g.animationProgress lit_0_05f)))) := by
  unfold animateCapture resized
  simp only [ge_iff_le, hw, ↓reduceIte]

theorem animateCapture_complete (g : Game) (hw : g.ballRect.w < 12) :
    animateCapture g =
      { g with animationProgress := f32Add g.animationProgress lit_0_05f,
               currentState := GameState.GAME_COMPLETED, ballInHole := false } := by
  unfold animateCapture
  simp only [ge_iff_le, not_le.mpr hw, ↓reduceIte]

/-- The three ticks that follow a capture: the ball shrinks to 12x12, then to 11x11, and the
third tick completes the round. -/
theorem capture_ticks (g : Game) (hcap : g.ballInHole = true) (hprog : g.animationProgress = 0)
    (hw : g.ballRect.w = 16) :
    updateBallPosition g = resized g lit_0_05f 12 ∧
    updateBallPosition (resized g lit_0_05f 12) = resized g lit_0_1f 11 ∧
    updateBallPosition (resized g lit_0_1f 11) =
      { resized g lit_0_1f 11 with
          animationProgress := f32Add lit_0_1f lit_0_05f,
          currentState := GameState.GAME_COMPLETED, ballInHole := false } := by
  refine ⟨?_, ?_, ?_⟩
  · unfold updateBallPosition
    rw [if_pos hcap, animateCapture_shrink g (by rw [hw]; norm_num), hprog,
      animation_first_tick.1, animation_first_tick.2]
  · unfold updateBallPosition
    rw [if_pos (show (resized g lit_0_05f 12).ballInHole = true from hcap),
      animateCapture_shrink _ (show (12:Int) ≤ 12 from le_rfl)]
    show resized (resized g lit_0_05f 12) (f32Add lit_0_05f lit_0_05f)
      (f32ToInt (f32Mul (f32OfInt BALL_SIZE)
        (f32Sub lit_0_8f (f32Add lit_0_05f lit_0_05f)))) = _
    rw [animation_second_tick.1, animation_second_tick.2]
    rfl
  · unfold updateBallPosition
    rw [if_pos (show (resized g lit_0_1f 11).ballInHole = true from hcap),
      animateCapture_complete _ (show (11:Int) < 12 by norm_num)]
    rfl

/-- C9: from the state produced by a capture (flag set, animation progress 0, ball 16x16,
state `GAME_RUNNING`), the ticks of `updateBallPosition` never increase the width or the
height; a tick that begins with width at least 12 keeps the state `GAME_RUNNING` and the flag
set; the first tick that begins with width below 12 is the third one, and it sets the state
to `GAME_COMPLETED` and clears the flag; during these three ticks the position, the velocity
and the score counter do not change. -/
theorem capture_animation (g : Game) (hcap : g.ballInHole = true)
    (hprog : g.animationProgress = 0) (hw : g.ballRect.w = 16) (hh : g.ballRect.h = 16)
    (hst : g.currentState = GameState.GAME_RUNNING) :
    (∀ k, k < 3 →
      (updateBallPosition^[k + 1] g).ballRect.w ≤ (updateBallPosition^[k] g).ballRect.w ∧
      (updateBallPosition^[k + 1] g).ballRect.h ≤ (updateBallPosition^[k] g).ballRect.h) ∧
    (∀ k, k < 3 → 12 ≤ (updateBallPosition^[k] g).ballRect.w →
      (updateBallPosition^[k + 1] g).currentState = GameState.GAME_RUNNING ∧
      (updateBallPosition^[k + 1] g).ballInHole = true) ∧
    (∀ k, k < 2 → 12 ≤ (updateBallPosition^[k] g).ballRect.w) ∧
    (updateBallPosition^[2] g).ballRect.w < 12 ∧
    (updateBallPosition^[2] g).currentState = GameState.GAME_RUNNING ∧
    (updateBallPosition^[3] g).currentState = GameState.GAME_COMPLETED ∧
    (updateBallPosition^[3] g).ballInHole = false ∧
    (∀ k, k ≤ 3 →
      (updateBallPosition^[k] g).ballRect.x = g.ballRect.x ∧
      (updateBallPosition^[k] g).ballRect.y = g.ballRect.y ∧
      (updateBallPosition^[k] g).ballVelX = g.ballVelX ∧
      (updateBallPosition^[k] g).ballVelY = g.ballVelY ∧
      (updateBallPosition^[k] g).bounceCount = g.bounceCount) := by
  obtain ⟨h1, h2, h3⟩ := capture_ticks g hcap hprog hw
  have e0 : updateBallPosition^[0] g = g := rfl
  have e1 : updateBallPosition^[1] g = resized g lit_0_05f 12 := h1
  have e2 : updateBallPosition^[2] g = resized g lit_0_1f 11 := by
    rw [Function.iterate_succ_apply', e1, h2]
  have e3 : updateBallPosition^[3] g =
      { resized g lit_0_1f 11 with
          animationProgress := f32Add lit_0_1f lit_0_05f,
          currentState := GameState.GAME_COMPLETED, ballInHole := false } := by
    rw [Function.iterate_succ_apply', e2, h3]
  have w1 : (resized g lit_0_05f 12).ballRect.w = 12 := rfl
  have w2 : (resized g lit_0_1f 11).ballRect.w = 11 := rfl
  refine ⟨?_, ?_, ?_, ?_, ?_, ?_, ?_, ?_⟩
  · intro k hk
    interval_cases k
    · rw [e0, e1, hw, hh]
      exact ⟨show (12:Int) ≤ 16 by norm_num, show (12:Int) ≤ 16 by norm_num⟩
    · rw [e1, e2]
      exact ⟨show (11:Int) ≤ 12 by norm_num, show (11:Int) ≤ 12 by norm_num⟩
    · rw [e2, e3]
      exact ⟨show (11:Int) ≤ 11 from le_rfl, show (11:Int) ≤ 11 from le_rfl⟩
  · intro k hk hge
    interval_cases k
    · rw [e1]; exact ⟨hst, hcap⟩
    · rw [e2]; exact ⟨hst, hcap⟩
    · rw [e2, w2] at hge; exact absurd hge (by norm_num)
  · intro k hk
    interval_cases k
    · rw [e0, hw]; norm_num
    · rw [e1, w1]
  · rw [e2, w2]; norm_num
  · rw [e2]; exact hst
  · rw [e3]
  · rw [e3]
  · intro k hk
    interval_cases k
    · rw [e0]; exact ⟨rfl, rfl, rfl, rfl, rfl⟩
    · rw [e1]; exact ⟨rfl, rfl, rfl, rfl, rfl⟩
    · rw [e2]; exact ⟨rfl, rfl, rfl, rfl, rfl⟩
    · rw [e3]; exact ⟨rfl, rfl, rfl, rfl, rfl⟩

/-- C9 (witness): the ball captured by the hole of `main`. -/
theorem capture_animation_witness :
    capturedGame.ballInHole = true ∧ capturedGame.animationProgress = 0 ∧
    capturedGame.ballRect.w = 16 ∧ capturedGame.ballRect.h = 16 ∧
    capturedGame.currentState = GameState.GAME_RUNNING ∧
    (updateBallPosition^[2] capturedGame).ballRect.w < 12 ∧
    (updateBallPosition^[3] capturedGame).currentState = GameState.GAME_COMPLETED ∧
    (updateBallPosition^[3] capturedGame).ballInHole = false :=
  have h := capture_animation capturedGame rfl rfl rfl rfl rfl
  ⟨rfl, rfl, rfl, rfl, rfl, h.2.2.2.1, h.2.2.2.2.2.1, h.2.2.2.2.2.2.1⟩

/-- The friction step, the integration and the boundary rule leave the hole, the obstacles, the
score counter, the game state, the captured flag and the animation progress alone. -/
theorem integrate_frame (g : Game) :
    (integrate g).holeRect = g.holeRect ∧ (integrate g).objects = g.objects ∧
    (integrate g).bounceCount = g.bounceCount ∧
    (integrate g).currentState = g.currentState ∧
    (integrate g).ballInHole = g.ballInHole ∧
    (integrate g).animationProgress = g.animationProgress := by
  unfold integrate
  simp only []
  split <;> exact ⟨rfl, rfl, rfl, rfl, rfl, rfl⟩

theorem applyFriction_frame (b : Bool) (g : Game) :
    (applyFriction b g).holeRect = g.holeRect ∧ (applyFriction b g).objects = g.objects ∧
    (applyFriction b g).bounceCount = g.bounceCount ∧
    (applyFriction b g).currentState = g.currentState ∧
    (applyFriction b g).ballInHole = g.ballInHole ∧
    (applyFriction b g).animationProgress = g.animationProgress ∧
    (applyFriction b g).ballRect = g.ballRect := by
  unfold applyFriction
  split <;> exact ⟨rfl, rfl, rfl, rfl, rfl, rfl, rfl⟩

theorem prepare_frame (g : Game) :
    (integrate (applyFriction g.moveBall g)).holeRect = g.holeRect ∧
    (integrate (applyFriction g.moveBall g)).bounceCount = g.bounceCount ∧
    (integrate (applyFriction g.moveBall g)).currentState = g.currentState := by
  obtain ⟨a1, _, a3, a4, _⟩ := integrate_frame (applyFriction g.moveBall g)
  obtain ⟨b1, _, b3, b4, _⟩ := applyFriction_frame g.moveBall g
  exact ⟨a1.trans b1, a3.trans b3, a4.trans b4⟩

theorem resolveTentative_capture (g : Game)
    (hit : checkCollision (futureBallRect g) g.holeRect = true) :
    resolveTentative g =
      { g with ballRect := { g.ballRect with x := g.holeRect.x + Int.tdiv g.holeRect.w 4,
                                             y := g.holeRect.y + Int.tdiv g.holeRect.h 4 },
               ballInHole := true, ballVelX := 0, ballVelY := 0, animationProgress := 0 } := by
  unfold resolveTentative
  simp only [hit, ↓reduceIte]

/-- C10 (counterexample): the ball `(100,100,16,16)` lies on the hole `(100,100,16,16)`, is not
captured and has velocity `(40,0)`; one call of `updateBallPosition` applies friction, moves
the ball to `(172,100)` and does not capture it: the flag stays clear and the velocity is
`(36,0)`. -/
theorem updateBallPosition_on_hole_not_captured :
    launchedFromHole.currentState = GameState.GAME_RUNNING ∧
    launchedFromHole.ballInHole = false ∧
    checkCollision launchedFromHole.ballRect launchedFromHole.holeRect = true ∧
    checkOverlap launchedFromHole.ballRect launchedFromHole.holeRect = true ∧
    (updateBallPosition launchedFromHole).ballInHole = false ∧
    (updateBallPosition launchedFromHole).ballVelX = 36 * 2 ^ 149 ∧
    (updateBallPosition launchedFromHole).ballRect = ⟨172, 100, 16, 16⟩ := by
  decide

/-- C10 (amended): when the ball is not captured and the tentative rectangle
`futureBallRect`, computed after the friction step, the integration and the boundary rule,
intersects the hole, one call of `updateBallPosition` sets the captured flag, leaves the
velocity exactly `(0,0)` and the animation progress 0, does not change the score counter, and
puts the ball at the hole's corner plus a quarter of the hole's size. -/
theorem updateBallPosition_capture (g : Game) (hcap : g.ballInHole = false)
    (hit : checkCollision (futureBallRect (integrate (applyFriction g.moveBall g)))
      g.holeRect = true) :
    (updateBallPosition g).ballInHole = true ∧
    (updateBallPosition g).ballVelX = 0 ∧ (updateBallPosition g).ballVelY = 0 ∧
    (updateBallPosition g).animationProgress = 0 ∧
    (updateBallPosition g).bounceCount = g.bounceCount ∧
    (updateBallPosition g).currentState = g.currentState ∧
    (updateBallPosition g).ballRect.x = g.holeRect.x + Int.tdiv g.holeRect.w 4 ∧
    (updateBallPosition g).ballRect.y = g.holeRect.y + Int.tdiv g.holeRect.h 4 := by
  obtain ⟨hhole, hcount, hstate⟩ := prepare_frame g
  rw [← hhole] at hit
  have hupd : updateBallPosition g = resolveTentative (integrate (applyFriction g.moveBall g)) := by
    unfold updateBallPosition
    simp [hcap]
  rw [hupd, resolveTentative_capture _ hit]
  exact ⟨rfl, rfl, rfl, rfl, hcount, hstate,
    congrArg (fun r : Rect => r.x + Int.tdiv r.w 4) hhole,
    congrArg (fun r : Rect => r.y + Int.tdiv r.h 4) hhole⟩

/-- C10 (witness): the ball at rest at `(95,285)` overlapping the hole `(90,280,16,16)` of
`main`. -/
theorem updateBallPosition_capture_witness :
    restingOnHole.ballInHole = false ∧
    checkCollision
      (futureBallRect (integrate (applyFriction restingOnHole.moveBall restingOnHole)))
      restingOnHole.holeRect = true ∧
    (updateBallPosition restingOnHole).ballInHole = true ∧
    (updateBallPosition restingOnHole).ballRect = ⟨94, 284, 16, 16⟩ ∧
    (updateBallPosition restingOnHole).ballVelX = 0 :=
  have h := updateBallPosition_capture restingOnHole rfl (by decide)
  ⟨rfl, by decide, h.1, by decide, h.2.1⟩

/-! ## Layout randomizer, frame: theorems -/

theorem getD_set_self (objects : List Rect) (i : Nat) (r : Rect) (h : i < objects.length) :
    (objects.set i r).getD i default = r := by
  simp [List.getD_eq_getElem?_getD, List.getElem?_set, h]

/-- The placement loop of obstacle `i` leaves entry `i` with its size and with its corner in
the sub-rectangle the positions are drawn from. -/
theorem placeObject_repositioned (i : Nat) (objects : List Rect) (draws : List Nat) :
    ∀ (objects' : List Rect) (rest : List Nat), i < objects.length →
      placeObject i objects draws = some (objects', rest) →
        Repositioned (objects.getD i default) (objects'.getD i default) := by
  induction objects, draws using placeObject.induct i with
  | case1 objects rx ry rest objects1 hov ih =>
    intro objects' rest' hi h
    rw [placeObject] at h
    simp only [objects1] at hov ih
    simp only [hov, ↓reduceIte] at h
    have h1 := ih objects' rest' (by rw [List.length_set]; exact hi) h
    rw [getD_set_self _ _ _ hi] at h1
    exact (randomPosition_repositioned _ rx ry).of_step h1
  | case2 objects rx ry rest objects1 hov =>
    intro objects' rest' hi h
    rw [placeObject] at h
    simp only [objects1] at hov
    simp only [hov, Bool.false_eq_true, ↓reduceIte, Option.some.injEq, Prod.mk.injEq] at h
    obtain ⟨h1, _⟩ := h
    subst h1
    rw [getD_set_self _ _ _ hi]
    exact randomPosition_repositioned _ rx ry
  | case3 t x hne =>
    intro objects' rest' _ h
    rw [placeObject] at h
    · cases h
    · exact hne

/-- The loop over the obstacles repositions the entries `i, ..., i + remaining - 1` and leaves
the other entries as they are. -/
theorem placeObjectsFrom_repositioned (remaining : Nat) :
    ∀ (i : Nat) (objects : List Rect) (draws : List Nat) (objects' : List Rect)
      (rest : List Nat), i + remaining ≤ objects.length →
      placeObjectsFrom remaining i objects draws = some (objects', rest) →
        (∀ j, i ≤ j → j < i + remaining →
          Repositioned (objects.getD j default) (objects'.getD j default)) ∧
        (∀ j, j < i ∨ i + remaining ≤ j →
          objects'.getD j default = objects.getD j default) := by
  induction remaining with
  | zero =>
    intro i objects draws objects' rest _ h
    simp only [placeObjectsFrom, Option.some.injEq, Prod.mk.injEq] at h
    obtain ⟨h1, _⟩ := h
    subst h1
    exact ⟨fun j h1 h2 => absurd h2 (by omega), fun _ _ => rfl⟩
  | succ n ih =>
    intro i objects draws objects' rest hlen h
    rw [placeObjectsFrom] at h
    cases hp : placeObject i objects draws with
    | none => rw [hp] at h; cases h
    | some p =>
      obtain ⟨o1, d1⟩ := p
      rw [hp] at h
      simp only at h
      obtain ⟨hl1, hsame, _⟩ := placeObject_spec i objects draws o1 d1 hp
      have hrep := placeObject_repositioned i objects draws o1 d1 (by omega) hp
      obtain ⟨hin, hout⟩ := ih (i + 1) o1 d1 objects' rest (by omega) h
      constructor
      · intro j h1 h2
        by_cases hji : j = i
        · subst hji
          rw [hout j (Or.inl (by omega))]
          exact hrep
        · have := hin j (by omega) (by omega)
          rw [hsame j hji] at this
          exact this
      · intro j hj
        rw [hout j (by omega), hsame j (by omega)]

theorem randomizeObjectPositions_frame (objects : List Rect) (ballRect holeRect : Rect)
    (draws : List Nat) (l : Layout) (rest : List Nat)
    (h : randomizeObjectPositions objects ballRect holeRect draws = some (l, rest)) :
    l.objects.length = objects.length ∧
    (∀ i, i < objects.length →
      Repositioned (objects.getD i default) (l.objects.getD i default)) ∧
    Repositioned ballRect l.ballRect ∧ Repositioned holeRect l.holeRect := by
  obtain ⟨d1, d2, h1, h2, h3⟩ := randomizeObjectPositions_phases _ _ _ _ _ _ h
  obtain ⟨hlen, _⟩ := placeObjectsFrom_spec objects.length 0 objects draws l.objects d1
    (by omega) (fun a b ha => absurd ha (Nat.not_lt_zero a)) h1
  obtain ⟨hin, _⟩ := placeObjectsFrom_repositioned objects.length 0 objects draws l.objects d1
    (by omega) h1
  obtain ⟨hb, _⟩ := placeBall_spec _ _ _ _ _ h2
  obtain ⟨hh, _⟩ := placeHole_spec _ _ _ _ _ _ h3
  exact ⟨hlen, fun i hi => hin i (Nat.zero_le i) (by omega), hb, hh⟩

/-- C13: whenever `randomizeObjectPositions` returns, the array has as many obstacles as
before, the obstacle at each index has the width and height it had at that index, the ball and
the hole have their width and height, and the top-left corner of every obstacle, of the ball
and of the hole satisfies `100 <= x < 800`, `100 <= y < 400`, which is at least `minD = 100`
from each edge of the 960x540 screen. -/
theorem randomizeObjectPositions_sizes_and_bounds (objects : List Rect)
    (ballRect holeRect : Rect) (draws : List Nat) (l : Layout) (rest : List Nat)
    (h : randomizeObjectPositions objects ballRect holeRect draws = some (l, rest)) :
    l.objects.length = objects.length ∧
    (∀ i, i < objects.length →
      Repositioned (objects.getD i default) (l.objects.getD i default)) ∧
    Repositioned ballRect l.ballRect ∧ Repositioned holeRect l.holeRect ∧
    (∀ r r' : Rect, Repositioned r r' →
      minD ≤ r'.x ∧ minD ≤ SCREEN_WIDTH - r'.x ∧ minD ≤ r'.y ∧ minD ≤ SCREEN_HEIGHT - r'.y) := by
  obtain ⟨h1, h2, h3, h4⟩ := randomizeObjectPositions_frame objects ballRect holeRect draws l rest h
  refine ⟨h1, h2, h3, h4, ?_⟩
  intro r r' hr
  obtain ⟨_, _, a, b, c, d⟩ := hr
  simp only [minD, SCREEN_WIDTH, SCREEN_HEIGHT]
  omega

/-- C13 (witness): the layout of `main` with the draws `sampleDraws`; the first obstacle keeps
its size 70x40 and is moved to `(281,333)`. -/
theorem randomizeObjectPositions_sizes_and_bounds_witness :
    randomizeObjectPositions referenceObjects ⟨480, 270, 16, 16⟩ referenceHole sampleDraws =
      some (sampleLayout, []) ∧
    sampleLayout.objects.length = 12 ∧
    Repositioned (referenceObjects.getD 0 default) (sampleLayout.objects.getD 0 default) ∧
    sampleLayout.objects.getD 0 default = ⟨281, 333, 70, 40⟩ ∧
    Repositioned referenceHole sampleLayout.holeRect :=
  have h := randomizeObjectPositions_sizes_and_bounds referenceObjects ⟨480, 270, 16, 16⟩
    referenceHole sampleDraws sampleLayout [] (by decide)
  ⟨by decide, h.1, h.2.1 0 (by decide), by decide, h.2.2.2.1⟩

/-! ## State machine: theorems -/

/-- Handling one event changes the game state only from `START_SCREEN` or from
`GAME_COMPLETED`, and then to `GAME_RUNNING`. -/
theorem handleEvent_state (e : Event) (draws : List Nat) (g g' : Game) (rest : List Nat)
    (h : handleEvent e draws g = some (g', rest)) :
    g'.currentState = g.currentState ∨
    (g.currentState = GameState.START_SCREEN ∧ g'.currentState = GameState.GAME_RUNNING) ∨
    (g.currentState = GameState.GAME_COMPLETED ∧ g'.currentState = GameState.GAME_RUNNING) := by
  unfold handleEvent at h
  split_ifs at h with h1 h2 h3 h4 h5 h6 h7
  all_goals first
    | (simp only [Option.some.injEq, Prod.mk.injEq] at h
       obtain ⟨hg, _⟩ := h
       subst hg
       first
         | exact Or.inl rfl
         | exact Or.inr (Or.inl ⟨h2.1, rfl⟩))
    | (cases hr : randomizeObjectPositions g.objects
          ⟨Int.tdiv SCREEN_WIDTH 2, Int.tdiv SCREEN_HEIGHT 2, BALL_SIZE, BALL_SIZE⟩ g.holeRect
          draws with
       | none => rw [hr] at h; cases h
       | some p =>
         obtain ⟨l, d⟩ := p
         rw [hr] at h
         simp only [Option.some.injEq, Prod.mk.injEq] at h
         obtain ⟨hg, _⟩ := h
         subst hg
         exact Or.inr (Or.inr ⟨h6.1, rfl⟩))

theorem handleEvents_state (events : List Event) :
    ∀ (draws : List Nat) (g g' : Game) (rest : List Nat),
      handleEvents events draws g = some (g', rest) →
        g'.currentState = g.currentState ∨
        (g.currentState = GameState.START_SCREEN ∧
          g'.currentState = GameState.GAME_RUNNING) ∨
        (g.currentState = GameState.GAME_COMPLETED ∧
          g'.currentState = GameState.GAME_RUNNING) := by
  induction events with
  | nil =>
    intro draws g g' rest h
    simp only [handleEvents, Option.some.injEq, Prod.mk.injEq] at h
    obtain ⟨hg, _⟩ := h
    subst hg
    exact Or.inl rfl
  | cons e es ih =>
    intro draws g g' rest h
    rw [handleEvents] at h
    cases he : handleEvent e draws g with
    | none => rw [he] at h; cases h
    | some p =>
      obtain ⟨g1, d1⟩ := p
      rw [he] at h
      simp only at h
      have hstep := handleEvent_state e draws g g1 d1 he
      have htail : g'.currentState = g1.currentState ∨
          (g1.currentState = GameState.START_SCREEN ∧
            g'.currentState = GameState.GAME_RUNNING) ∨
          (g1.currentState = GameState.GAME_COMPLETED ∧
            g'.currentState = GameState.GAME_RUNNING) := by
        split_ifs at h with hc
        · simp only [Option.some.injEq, Prod.mk.injEq] at h
          obtain ⟨hg, _⟩ := h
          subst hg
          exact Or.inl rfl
        · exact ih d1 g1 g' rest h
      rcases hstep with a | ⟨a1, a2⟩ | ⟨a1, a2⟩ <;>
        rcases htail with b | ⟨b1, b2⟩ | ⟨b1, b2⟩
      · exact Or.inl (b.trans a)
      · exact Or.inr (Or.inl ⟨a ▸ b1, b2⟩)
      · exact Or.inr (Or.inr ⟨a ▸ b1, b2⟩)
      · exact Or.inr (Or.inl ⟨a1, b.trans a2⟩)
      · rw [a2] at b1; cases b1
      · rw [a2] at b1; cases b1
      · exact Or.inr (Or.inr ⟨a1, b.trans a2⟩)
      · rw [a2] at b1; cases b1
      · rw [a2] at b1; cases b1

/-- The three outcomes of `resolveTentative`: capture by the hole, reflection off the first
obstacle hit, or the move to the tentative position. -/
theorem resolveTentative_cases (g : Game) :
    (checkCollision (futureBallRect g) g.holeRect = true ∧
      resolveTentative g =
        { g with ballRect := { g.ballRect with x := g.holeRect.x + Int.tdiv g.holeRect.w 4,
                                               y := g.holeRect.y + Int.tdiv g.holeRect.h 4 },
                 ballInHole := true, ballVelX := 0, ballVelY := 0,
                 animationProgress := 0 }) ∨
    (checkCollision (futureBallRect g) g.holeRect = false ∧
      ∃ o, g.objects.find? (fun o => checkCollision (futureBallRect g) o) = some o ∧
        resolveTentative g =
          { g with ballRect := (reflectBallOffObject g.ballRect g.ballVelX g.ballVelY o).1,
                   ballVelX := (reflectBallOffObject g.ballRect g.ballVelX g.ballVelY o).2.1,
                   ballVelY := (reflectBallOffObject g.ballRect g.ballVelX g.ballVelY o).2.2,
                   bounceCount := wrapInt32 (g.bounceCount + 1) }) ∨
    (checkCollision (futureBallRect g) g.holeRect = false ∧
      g.objects.find? (fun o => checkCollision (futureBallRect g) o) = none ∧
      resolveTentative g =
        { g with ballRect := { g.ballRect with x := f32ToInt (tentativePosition g).1,
                                               y := f32ToInt (tentativePosition g).2 } }) := by
  cases hh : checkCollision (futureBallRect g) g.holeRect with
  | true => exact Or.inl ⟨rfl, resolveTentative_capture g hh⟩
  | false =>
    cases hf : g.objects.find? (fun o => checkCollision (futureBallRect g) o) with
    | none =>
      refine Or.inr (Or.inr ⟨rfl, rfl, ?_⟩)
      unfold resolveTentative
      simp only [hh, Bool.false_eq_true, ↓reduceIte, hf]
    | some o =>
      refine Or.inr (Or.inl ⟨rfl, o, rfl, ?_⟩)
      unfold resolveTentative
      simp only [hh, Bool.false_eq_true, ↓reduceIte, hf]

theorem resolveTentative_state (g : Game) :
    (resolveTentative g).currentState = g.currentState := by
  rcases resolveTentative_cases g with ⟨_, h⟩ | ⟨_, o, _, h⟩ | ⟨_, _, h⟩ <;> rw [h]

/-- A call of `updateBallPosition` changes the game state only on a tick that starts with the
captured flag set and the width below 12, and then to `GAME_COMPLETED`. -/
theorem updateBallPosition_state (g : Game) :
    (updateBallPosition g).currentState = g.currentState ∨
    (g.ballInHole = true ∧ g.ballRect.w < 12 ∧
      (updateBallPosition g).currentState = GameState.GAME_COMPLETED) := by
  unfold updateBallPosition
  by_cases hcap : g.ballInHole = true
  · rw [if_pos hcap]
    by_cases hw : g.ballRect.w < 12
    · right
      rw [animateCapture_complete g hw]
      exact ⟨hcap, hw, rfl⟩
    · left
      rw [animateCapture_shrink g (not_lt.mp hw)]
      rfl
  · rw [if_neg hcap]
    left
    rw [resolveTentative_state, (integrate_frame _).2.2.2.1, (applyFriction_frame _ _).2.2.2.1]

/-- C11: in one iteration of the main loop, event handling (whenever it returns) changes the
game state only from `START_SCREEN` to `GAME_RUNNING` or from `GAME_COMPLETED` to
`GAME_RUNNING`; the call of `updateBallPosition` that follows changes it only from
`GAME_RUNNING` to `GAME_COMPLETED`, and only on a tick that starts with the captured flag set
and the ball width below 12; the state `START_SCREEN` is entered by neither. -/
theorem mainLoopStep_transitions (events : List Event) (draws : List Nat) (g g1 : Game)
    (d1 : List Nat) (h : handleEvents events draws g = some (g1, d1)) :
    (g1.currentState = g.currentState ∨
      (g.currentState = GameState.START_SCREEN ∧
        g1.currentState = GameState.GAME_RUNNING) ∨
      (g.currentState = GameState.GAME_COMPLETED ∧
        g1.currentState = GameState.GAME_RUNNING)) ∧
    ∃ g2, mainLoopStep events draws g = some (g2, d1) ∧
      (g2.currentState = g1.currentState ∨
        (g1.currentState = GameState.GAME_RUNNING ∧
          g2.currentState = GameState.GAME_COMPLETED ∧ g2 = updateBallPosition g1 ∧
          g1.ballInHole = true ∧ g1.ballRect.w < 12)) ∧
      (g1.currentState = GameState.START_SCREEN → g.currentState = GameState.START_SCREEN) ∧
      (g2.currentState = GameState.START_SCREEN → g.currentState = GameState.START_SCREEN) := by
  have hev := handleEvents_state events draws g g1 d1 h
  have hstart1 : g1.currentState = GameState.START_SCREEN →
      g.currentState = GameState.START_SCREEN := by
    intro hs
    rcases hev with a | ⟨a1, _⟩ | ⟨_, a2⟩
    · rw [← a]; exact hs
    · exact a1
    · rw [a2] at hs; cases hs
  refine ⟨hev, ?_⟩
  unfold mainLoopStep
  rw [h]
  simp only
  by_cases hc : g1.closed = true
  · rw [if_pos hc]
    exact ⟨g1, rfl, Or.inl rfl, hstart1, hstart1⟩
  · rw [if_neg hc]
    by_cases hr : g1.currentState = GameState.GAME_RUNNING
    · rw [if_pos hr]
      refine ⟨updateBallPosition g1, rfl, ?_, hstart1, ?_⟩
      · rcases updateBallPosition_state g1 with a | ⟨a1, a2, a3⟩
        · exact Or.inl a
        · exact Or.inr ⟨hr, a3, rfl, a1, a2⟩
      · intro hs
        rcases updateBallPosition_state g1 with a | ⟨_, _, a3⟩
        · rw [a, hr] at hs; cases hs
        · rw [a3] at hs; cases hs
    · rw [if_neg hr]
      exact ⟨g1, rfl, Or.inl rfl, hstart1, hstart1⟩

/-- C11 (witness): a key press on the start screen of `main` starts the game, and the tick of
the same iteration leaves the state `GAME_RUNNING`. -/
theorem mainLoopStep_transitions_witness :
    handleEvents [keyDown 32] [] initialGame =
      some ({ initialGame with currentState := GameState.GAME_RUNNING }, []) ∧
    (mainLoopStep [keyDown 32] [] initialGame).map (fun p => p.1.currentState) =
      some GameState.GAME_RUNNING ∧
    (∃ g2, mainLoopStep [keyDown 32] [] initialGame = some (g2, []) ∧
      (g2.currentState = GameState.GAME_RUNNING ∨
        (GameState.GAME_RUNNING = GameState.GAME_RUNNING ∧
          g2.currentState = GameState.GAME_COMPLETED ∧
          g2 = updateBallPosition { initialGame with currentState := GameState.GAME_RUNNING } ∧
          initialGame.ballInHole = true ∧ initialGame.ballRect.w < 12)) ∧
      (GameState.GAME_RUNNING = GameState.START_SCREEN →
        initialGame.currentState = GameState.START_SCREEN) ∧
      (g2.currentState = GameState.START_SCREEN →
        initialGame.currentState = GameState.START_SCREEN)) :=
  ⟨by decide, by decide,
   (mainLoopStep_transitions [keyDown 32] [] initialGame
      { initialGame with currentState := GameState.GAME_RUNNING } [] (by decide)).2⟩

/-! ## Score counter: theorems -/

/-- The result of `List.find?` is the entry of lowest index that satisfies the test. -/
theorem find?_lowest_index (p : Rect → Bool) (l : List Rect) :
    ∀ o, l.find? p = some o →
      ∃ i, i < l.length ∧ l.getD i default = o ∧ p o = true ∧
        ∀ j, j < i → p (l.getD j default) = false := by
  induction l with
  | nil => intro o h; cases h
  | cons a as ih =>
    intro o h
    rw [List.find?_cons] at h
    cases hp : p a with
    | true =>
      rw [hp] at h
      simp only [Option.some.injEq] at h
      subst h
      exact ⟨0, by simp, rfl, hp, fun j hj => absurd hj (Nat.not_lt_zero j)⟩
    | false =>
      rw [hp] at h
      obtain ⟨i, hi, hget, hpo, hlow⟩ := ih o h
      refine ⟨i + 1, by simp only [List.length_cons]; omega, ?_, hpo, ?_⟩
      · simpa [List.getD_cons_succ] using hget
      · intro j hj
        cases j with
        | zero => simpa using hp
        | succ j =>
          have := hlow j (by omega)
          simpa [List.getD_cons_succ] using this

theorem reflectBallOffObject_apart (ball obj : Rect) (vx vy : F32) :
    checkCollision (reflectBallOffObject ball vx vy obj).1 obj = false ∧
    (reflectBallOffObject ball vx vy obj).1.w = ball.w ∧
    (reflectBallOffObject ball vx vy obj).1.h = ball.h := by
  unfold reflectBallOffObject
  simp only []
  split <;> split
  · exact ⟨checkCollision_eq_false_of_apart_x _ _ (Or.inr (le_refl _)), rfl, rfl⟩
  · refine ⟨checkCollision_eq_false_of_apart_x _ _ (Or.inl ?_), rfl, rfl⟩
    show obj.x - ball.w + ball.w ≤ obj.x
    omega
  · exact ⟨checkCollision_eq_false_of_apart_y _ _ (Or.inr (le_refl _)), rfl, rfl⟩
  · refine ⟨checkCollision_eq_false_of_apart_y _ _ (Or.inl ?_), rfl, rfl⟩
    show obj.y - ball.h + ball.h ≤ obj.y
    omega

theorem beforeResolve_frame (g : Game) :
    (beforeResolve g).holeRect = g.holeRect ∧ (beforeResolve g).objects = g.objects ∧
    (beforeResolve g).bounceCount = g.bounceCount := by
  unfold beforeResolve
  obtain ⟨a1, a2, a3, _⟩ := integrate_frame (applyFriction g.moveBall g)
  obtain ⟨b1, b2, b3, _⟩ := applyFriction_frame g.moveBall g
  exact ⟨a1.trans b1, a2.trans b2, a3.trans b3⟩

theorem animateCapture_bounceCount (g : Game) :
    (animateCapture g).bounceCount = g.bounceCount := by
  by_cases hw : g.ballRect.w < 12
  · rw [animateCapture_complete g hw]
  · rw [animateCapture_shrink g (not_lt.mp hw)]
    rfl

theorem getD_mem_of_lt (l : List Rect) (i : Nat) (h : i < l.length) :
    l.getD i default ∈ l := by
  rw [List.getD_eq_getElem l default h]
  exact List.getElem_mem h

/-- C12 (counterexample): in the layout of `main`, with the ball `(380,210,16,16)`, velocity
`(-10,0)` and the score counter at `INT_MAX = 2147483647`, the ball is not captured, the
tentative rectangle `(362,210,16,16)` misses the hole and intersects the first obstacle, and one
call of `updateBallPosition` leaves the counter at `-2147483648`: it has neither stayed the
same nor increased by 1. -/
theorem updateBallPosition_score_overflow :
    saturatedScenario.bounceCount = 2147483647 ∧
    saturatedScenario.ballInHole = false ∧
    futureBallRect (beforeResolve saturatedScenario) = ⟨362, 210, 16, 16⟩ ∧
    checkCollision (futureBallRect (beforeResolve saturatedScenario))
      saturatedScenario.holeRect = false ∧
    (⟨300, 200, 70, 40⟩ : Rect) ∈ saturatedScenario.objects ∧
    checkCollision (futureBallRect (beforeResolve saturatedScenario)) ⟨300, 200, 70, 40⟩
      = true ∧
    (updateBallPosition saturatedScenario).bounceCount = -2147483648 ∧
    (updateBallPosition saturatedScenario).bounceCount ≠ saturatedScenario.bounceCount ∧
    (updateBallPosition saturatedScenario).bounceCount ≠
      saturatedScenario.bounceCount + 1 := by
  decide

/-- C12 (amended): when the score counter is a 32-bit `int` below `INT_MAX`, a call of
`updateBallPosition` leaves it as it is or adds exactly 1 to it.  It adds 1 exactly when the
ball is not captured, the tentative rectangle does not intersect the hole and intersects at
least one obstacle.  In that case the ball and its velocity are the result of
`reflectBallOffObject` for the obstacle of lowest index that the tentative rectangle
intersects, and the ball is not at the tentative rectangle. -/
theorem updateBallPosition_score (g : Game) (hlo : INT_MIN ≤ g.bounceCount)
    (hhi : g.bounceCount < INT_MAX) :
    ((updateBallPosition g).bounceCount = g.bounceCount ∨
      (updateBallPosition g).bounceCount = g.bounceCount + 1) ∧
    ((updateBallPosition g).bounceCount = g.bounceCount + 1 ↔
      g.ballInHole = false ∧
      checkCollision (futureBallRect (beforeResolve g)) g.holeRect = false ∧
      ∃ o ∈ g.objects, checkCollision (futureBallRect (beforeResolve g)) o = true) ∧
    ((updateBallPosition g).bounceCount = g.bounceCount + 1 →
      ∃ i, i < g.objects.length ∧
        checkCollision (futureBallRect (beforeResolve g)) (g.objects.getD i default) = true ∧
        (∀ j, j < i →
          checkCollision (futureBallRect (beforeResolve g)) (g.objects.getD j default)
            = false) ∧
        ((updateBallPosition g).ballRect, (updateBallPosition g).ballVelX,
            (updateBallPosition g).ballVelY) =
          reflectBallOffObject (beforeResolve g).ballRect (beforeResolve g).ballVelX
            (beforeResolve g).ballVelY (g.objects.getD i default) ∧
        (updateBallPosition g).ballRect ≠ futureBallRect (beforeResolve g)) := by
  obtain ⟨hhole, hobj, hcount⟩ := beforeResolve_frame g
  have hwrap : wrapInt32 (g.bounceCount + 1) = g.bounceCount + 1 := by
    apply wrapInt32_eq_self
    · unfold INT_MIN at hlo ⊢; omega
    · unfold INT_MAX at hhi ⊢; omega
  by_cases hcap : g.ballInHole = true
  · have hupd : updateBallPosition g = animateCapture g := by
      unfold updateBallPosition
      rw [if_pos hcap]
    have hsame : (updateBallPosition g).bounceCount = g.bounceCount := by
      rw [hupd, animateCapture_bounceCount]
    refine ⟨Or.inl hsame, ⟨fun h => ?_, fun h => ?_⟩, fun h => ?_⟩
    · rw [hsame] at h; omega
    · rw [hcap] at h; cases h.1
    · rw [hsame] at h; omega
  · have hcap' : g.ballInHole = false := by simpa using hcap
    have hupd : updateBallPosition g = resolveTentative (beforeResolve g) := by
      unfold updateBallPosition beforeResolve
      rw [if_neg hcap]
    rcases resolveTentative_cases (beforeResolve g) with
      ⟨hh, hres⟩ | ⟨hh, o, hfind, hres⟩ | ⟨hh, hfind, hres⟩
    · have hsame : (updateBallPosition g).bounceCount = g.bounceCount := by
        rw [hupd, hres]; exact hcount
      rw [hhole] at hh
      refine ⟨Or.inl hsame, ⟨fun h => ?_, fun h => ?_⟩, fun h => ?_⟩
      · rw [hsame] at h; omega
      · rw [hh] at h; cases h.2.1
      · rw [hsame] at h; omega
    · have hplus : (updateBallPosition g).bounceCount = g.bounceCount + 1 := by
        rw [hupd, hres]
        show wrapInt32 ((beforeResolve g).bounceCount + 1) = g.bounceCount + 1
        rw [hcount, hwrap]
      rw [hhole] at hh
      rw [hobj] at hfind
      obtain ⟨i, hi, hget, hpo, hlow⟩ := find?_lowest_index _ _ o hfind
      have hpo' : checkCollision (futureBallRect (beforeResolve g)) o = true := hpo
      refine ⟨Or.inr hplus, ⟨fun _ => ⟨hcap', hh, o, ?_, hpo'⟩, fun _ => hplus⟩,
        fun _ => ⟨i, hi, ?_, hlow, ?_, ?_⟩⟩
      · rw [← hget]; exact getD_mem_of_lt _ _ hi
      · rw [hget]; exact hpo'
      · rw [hget, hupd, hres]
      · rw [hupd, hres]
        intro heq
        have hrect : (reflectBallOffObject (beforeResolve g).ballRect
            (beforeResolve g).ballVelX (beforeResolve g).ballVelY o).1 =
            futureBallRect (beforeResolve g) := heq
        have hapart := (reflectBallOffObject_apart (beforeResolve g).ballRect o
          (beforeResolve g).ballVelX (beforeResolve g).ballVelY).1
        rw [hrect, hpo'] at hapart
        cases hapart
    · have hsame : (updateBallPosition g).bounceCount = g.bounceCount := by
        rw [hupd, hres]; exact hcount
      rw [hobj] at hfind
      refine ⟨Or.inl hsame, ⟨fun h => ?_, fun h => ?_⟩, fun h => ?_⟩
      · rw [hsame] at h; omega
      · obtain ⟨_, _, o, ho, hpo⟩ := h
        have := List.find?_eq_none.mp hfind o ho
        rw [hpo] at this
        exact absurd rfl this
      · rw [hsame] at h; omega

/-- C12 (witness): the ball `(380,210,16,16)` with velocity `(-10,0)` in the layout of `main`:
the tentative rectangle `(362,210,16,16)` intersects the first obstacle `(300,200,70,40)`, the
score counter goes from 0 to 1, the ball is put at `x = 370` and the x velocity becomes 9. -/
theorem updateBallPosition_score_witness :
    INT_MIN ≤ bounceScenario.bounceCount ∧ bounceScenario.bounceCount < INT_MAX ∧
    futureBallRect (beforeResolve bounceScenario) = ⟨362, 210, 16, 16⟩ ∧
    (updateBallPosition bounceScenario).bounceCount = bounceScenario.bounceCount + 1 ∧
    (updateBallPosition bounceScenario).ballRect = ⟨370, 210, 16, 16⟩ ∧
    (updateBallPosition bounceScenario).ballVelX = 9 * 2 ^ 149 ∧
    (bounceScenario.ballInHole = false ∧
      checkCollision (futureBallRect (beforeResolve bounceScenario)) bounceScenario.holeRect
        = false ∧
      ∃ o ∈ bounceScenario.objects,
        checkCollision (futureBallRect (beforeResolve bounceScenario)) o = true) :=
  ⟨by decide, by decide, by decide, by decide, by decide, by decide,
   (updateBallPosition_score bounceScenario (by decide) (by decide)).2.1.mp (by decide)⟩

end GolfPixel
